import Mathlib
/-!
Verification development for the SignalBridge strategic-intelligence
collection engine (`signalbridge_01`).

The Python sources are shallowly embedded:

* pure numeric logic (`ai_strategic_controller.py`) is embedded over exact
  rationals, except that the two places where a Python `float` product is
  truncated with `int(...)` (collection volume and collection timeout) are
  modelled with an exact binary64 round-to-nearest-even model over dyadic
  rationals, because there the rounding of `0.1` and `0.7` is observable in
  the resulting integer;
* stateful persistence (`supabase_client.py`) is embedded as explicit state
  passing over an in-memory table of source rows and signal rows;
* LLM responses, article lists and HTTP responses are inputs of the
  embedded functions (the code treats them as opaque data);
* Python strings are Lean `String`/`List Char`; `s[:n]` is `take n`;
  `x in s` is substring containment; `dict` lookups with defaults are
  `Option.getD`.
-/
/-! ## Generic helpers: Python-style list and string operations -/

/-- Substring containment on character lists, mirroring Python's
`needle in haystack` (True when `needle` occurs contiguously). -/
def listContainsSub (needle : List Char) : List Char → Bool
  | [] => needle.isEmpty
  | c :: t => List.isPrefixOf needle (c :: t) || listContainsSub needle t

/-- Python string slicing `s[:n]` (by characters). -/
def pyTake (s : String) (n : ℕ) : String := String.mk (s.data.take n)

/-- ASCII lower-casing of a character, mirroring `str.lower()` on the ASCII
range (the RSS markers and the bodies in the spec's examples are ASCII). -/
def asciiLower (c : Char) : Char :=
  if 'A' ≤ c ∧ c ≤ 'Z' then Char.ofNat (c.toNat + 32) else c

/-- ASCII lower-casing of a character list. -/
def lowerChars (l : List Char) : List Char := l.map asciiLower

/-! ## A binary64 model over dyadic rationals

`Dyadic` represents `m * 2 ^ e` exactly.  `roundToDouble` rounds a dyadic
value to 53 significant bits with ties to even, which on the normal range
(all values appearing in the embedded code are far from overflow and
underflow) is exactly IEEE-754 binary64 round-to-nearest-even.  Products and
differences of doubles are dyadic, so one rounding step after each exact
operation reproduces Python float arithmetic on these values. -/
/-- Number of binary digits of `n` (`0` for `0`), with explicit fuel so that
the kernel can evaluate it. -/
def bitsAux : ℕ → ℕ → ℕ
  | 0, _ => 0
  | fuel + 1, n => if n = 0 then 0 else bitsAux fuel (n / 2) + 1

/-- Number of binary digits of `n`; `bits 0 = 0` and
`2 ^ (bits n - 1) ≤ n < 2 ^ bits n` for `n ≠ 0`. -/
def bits (n : ℕ) : ℕ := bitsAux n n

/-- Round `a / 2 ^ k` to the nearest integer, ties to even. -/
def rnePosNat (a k : ℕ) : ℕ :=
  if 2 * (a % 2 ^ k) < 2 ^ k then a / 2 ^ k
  else if 2 ^ k < 2 * (a % 2 ^ k) then a / 2 ^ k + 1
  else if (a / 2 ^ k) % 2 = 0 then a / 2 ^ k else a / 2 ^ k + 1

/-- A dyadic rational `m * 2 ^ e`. -/
structure Dyadic where
  m : ℤ
  e : ℤ
deriving DecidableEq

/-- The rational value of a dyadic. -/
def Dyadic.toRat (d : Dyadic) : ℚ := (d.m : ℚ) * 2 ^ d.e

/-- Round a dyadic value to 53 significant bits, ties to even: the binary64
rounding of the exact value (normal range; overflow and underflow do not
occur for the values in the embedded code). -/
def roundToDouble (d : Dyadic) : Dyadic :=
  if d.m = 0 then ⟨0, 0⟩
  else
    let a := d.m.natAbs
    if bits a ≤ 53 then d
    else
      let k := bits a - 53
      let r := rnePosNat a k
      if d.m < 0 then ⟨-(r : ℤ), d.e + k⟩ else ⟨(r : ℤ), d.e + k⟩

/-- Exact difference of two dyadics. -/
def dySub (a b : Dyadic) : Dyadic :=
  if a.e ≤ b.e then ⟨a.m - b.m * 2 ^ (b.e - a.e).toNat, a.e⟩
  else ⟨a.m * 2 ^ (a.e - b.e).toNat - b.m, b.e⟩

/-- Value comparison of dyadics. -/
def dyLt (a b : Dyadic) : Bool :=
  a.m * 2 ^ (a.e - min a.e b.e).toNat < b.m * 2 ^ (b.e - min a.e b.e).toNat

/-- Python `max(a, b)` on floats (returns the second argument only when it
is strictly larger). -/
def pyMax (a b : Dyadic) : Dyadic := if dyLt a b then b else a

/-- Python `min(a, b)` on floats (returns the second argument only when it
is strictly smaller). -/
def pyMin (a b : Dyadic) : Dyadic := if dyLt b a then b else a

/-- Float multiplication: exact product, then binary64 rounding. -/
def fmul (a b : Dyadic) : Dyadic := roundToDouble ⟨a.m * b.m, a.e + b.e⟩

/-- Float subtraction: exact difference, then binary64 rounding. -/
def fsub (a b : Dyadic) : Dyadic := roundToDouble (dySub a b)

/-- Python `int(x)` on a float value: truncation toward zero. -/
def pyInt (d : Dyadic) : ℤ :=
  if 0 ≤ d.e then d.m * 2 ^ d.e.toNat
  else
    if 0 ≤ d.m then (d.m.natAbs / 2 ^ (-d.e).toNat : ℕ)
    else -((d.m.natAbs / 2 ^ (-d.e).toNat : ℕ) : ℤ)

/-- The binary64 value of the literal `0.1`. -/
def float01 : Dyadic := ⟨3602879701896397, -55⟩

/-- The binary64 value of the literal `0.7`. -/
def float07 : Dyadic := ⟨3152519739159347, -52⟩

/-- The binary64 value of the literal `1.5` (exact). -/
def float15 : Dyadic := ⟨3, -1⟩

/-- The binary64 value of the literal `0.5` (exact). -/
def float05 : Dyadic := ⟨1, -1⟩

/-- The binary64 value of the literal `0.3`. -/
def float03 : Dyadic := ⟨5404319552844595, -54⟩

/-- The binary64 value of the literal `0.15`. -/
def float015 : Dyadic := ⟨5404319552844595, -55⟩

/-- The binary64 value of the literal `1.2`. -/
def float12 : Dyadic := ⟨5404319552844595, -52⟩

/-- The binary64 value of the literal `0.8`. -/
def float08 : Dyadic := ⟨3602879701896397, -52⟩

/-! ## `core/ai_strategic_controller.py`: parameter derivation

Embeddings of `_calculate_collection_volume`, `_calculate_relevance_threshold`,
`_calculate_timeout`, `_calculate_ai_batch_size`, `_calculate_max_signals` and
`_ai_determine_collection_parameters`.  Python dict lookups with a default
(`base_volumes.get(intensity, 500)`) become if-chains with the same default.
All three numeric paths are binary64: the volume and timeout paths end in
`int(...)` of a float product and the threshold path returns a float, so
every literal is the double it denotes and every conversion and
multiplication goes through `roundToDouble`; the clamp is Python
`max`/`min`, which selects one of its float arguments unchanged. -/
/-- A PIR indicator row as read from the `indicators` table (the fields the
embedded code uses). -/
structure PirRow where
  id : String
  indicator_text : String
  session_id : Option String
deriving DecidableEq

/-- The strategy fields read by `_ai_determine_collection_parameters`. -/
structure Strategy where
  urgency_level : String
  collection_intensity : String
  relevance_threshold : String
  cross_pir_analysis : String
deriving DecidableEq

/-- `_calculate_collection_volume(intensity, pir_count)`. -/
def calculate_collection_volume (intensity : String) (pir_count : ℕ) : ℤ :=
  let base : ℤ :=
    if intensity = "light" then 200
    else if intensity = "standard" then 500
    else if intensity = "intensive" then 1000
    else if intensity = "comprehensive" then 2000
    else 500
  if 5 < pir_count then
    let scaling_factor :=
      pyMax float05 (fsub ⟨1, 0⟩ (fmul (roundToDouble ⟨(pir_count : ℤ) - 5, 0⟩) float01))
    pyInt (fmul (roundToDouble ⟨base, 0⟩) scaling_factor)
  else base

/-- `_calculate_relevance_threshold(threshold_type, urgency)`: the base
thresholds are the binary64 literals `0.7`/`0.5`/`0.3`/`0.15`, the urgency
adjustments are binary64 multiplications by the doubles `0.7` and `1.2`,
and `max(0.1, min(0.8, threshold))` is Python float `max`/`min`. -/
def calculate_relevance_threshold (threshold_type urgency : String) : Dyadic :=
  let threshold : Dyadic :=
    if threshold_type = "very_selective" then float07
    else if threshold_type = "selective" then float05
    else if threshold_type = "balanced" then float03
    else if threshold_type = "inclusive" then float015
    else float03
  let adjusted : Dyadic :=
    if urgency = "crisis" then fmul threshold float07
    else if urgency = "long_term" then fmul threshold float12
    else threshold
  pyMax float01 (pyMin float08 adjusted)

/-- `_calculate_timeout(urgency, intensity)`. -/
def calculate_timeout (urgency intensity : String) : ℤ :=
  let timeout : ℤ :=
    if urgency = "crisis" then 180
    else if urgency = "strategic" then 300
    else if urgency = "long_term" then 450
    else 300
  if intensity = "comprehensive" then pyInt (fmul (roundToDouble ⟨timeout, 0⟩) float15)
  else if intensity = "light" then pyInt (fmul (roundToDouble ⟨timeout, 0⟩) float07)
  else timeout

/-- `_calculate_ai_batch_size(intensity)`. -/
def calculate_ai_batch_size (intensity : String) : ℤ :=
  if intensity = "light" then 20
  else if intensity = "standard" then 30
  else if intensity = "intensive" then 50
  else if intensity = "comprehensive" then 100
  else 30

/-- `_calculate_max_signals(intensity)`. -/
def calculate_max_signals (intensity : String) : ℤ :=
  if intensity = "light" then 15
  else if intensity = "standard" then 25
  else if intensity = "intensive" then 50
  else if intensity = "comprehensive" then 100
  else 25

/-- The record built by `_ai_determine_collection_parameters`. -/
structure CollectionParams where
  max_articles_per_pir : ℤ
  relevance_threshold : Dyadic
  parallel_processing : Bool
  cross_pir_analysis : String
  collection_timeout : ℤ
  intensity_level : String
  urgency_level : String
  ai_evaluation_batch_size : ℤ
  max_signals_per_pir : ℤ

/-- `_ai_determine_collection_parameters(strategy, pirs)` (the `.get`
defaults `'strategic'`, `'standard'`, `'balanced'` are subsumed by the
defaults of the tier tables). -/
def ai_determine_collection_parameters (strategy : Strategy) (pirs : List PirRow) :
    CollectionParams where
  max_articles_per_pir := calculate_collection_volume strategy.collection_intensity pirs.length
  relevance_threshold :=
    calculate_relevance_threshold strategy.relevance_threshold strategy.urgency_level
  parallel_processing := true
  cross_pir_analysis := strategy.cross_pir_analysis
  collection_timeout := calculate_timeout strategy.urgency_level strategy.collection_intensity
  intensity_level := strategy.collection_intensity
  urgency_level := strategy.urgency_level
  ai_evaluation_batch_size := calculate_ai_batch_size strategy.collection_intensity
  max_signals_per_pir := calculate_max_signals strategy.collection_intensity

/-! Claim-side tables for C1, transcribed from the spec's wording. -/
/-- Spec table: base document budget per intensity tier. -/
def specBaseVolume (intensity : String) : ℤ :=
  if intensity = "light" then 200
  else if intensity = "standard" then 500
  else if intensity = "intensive" then 1000
  else 2000

/-- Spec formula: base budget scaled by `max(0.5, 1 - 0.1 * (n - 5))` for
`n > 5` PIRs, truncated to an integer. -/
def specMaxDocs (intensity : String) (n : ℕ) : ℤ :=
  if 5 < n then ⌊(specBaseVolume intensity : ℚ) * max (1/2) (1 - ((n : ℚ) - 5) / 10)⌋
  else specBaseVolume intensity

/-- The claim's threshold formula read as exact arithmetic: selectivity base
threshold, urgency factor, clamp to `[0.10, 0.80]`.  The program computes
this in binary64, so its values deviate from this table (see
`specThresholdAmended`). -/
def specThreshold (selectivity urgency : String) : ℚ :=
  let base : ℚ :=
    if selectivity = "very_selective" then 7/10
    else if selectivity = "selective" then 1/2
    else if selectivity = "balanced" then 3/10
    else 3/20
  let adjusted : ℚ :=
    if urgency = "crisis" then base * (7/10)
    else if urgency = "long_term" then base * (6/5)
    else base
  min (8/10) (max (1/10) adjusted)

/-- Amended threshold table: the binary64 value the program computes for
each selectivity/urgency cell, written as an explicit dyadic.  Eleven of the
twelve cells are the double nearest the exact table value (`0.7`, `0.8`
(clamped), `0.35`, `0.5`, `0.6`, `0.21`, `0.3`, `0.36`, `0.105`, `0.15`,
`0.18`); the very_selective/crisis cell is the binary64 product
`0.7 * 0.7 = 0.48999999999999994 = 8827055269646171 / 2 ^ 54`, one ulp
below the double nearest `0.49` (`8827055269646172 / 2 ^ 54`). -/
def specThresholdAmended (selectivity urgency : String) : Dyadic :=
  if selectivity = "very_selective" then
    if urgency = "crisis" then ⟨8827055269646171, -54⟩
    else if urgency = "long_term" then ⟨3602879701896397, -52⟩
    else ⟨3152519739159347, -52⟩
  else if selectivity = "selective" then
    if urgency = "crisis" then ⟨3152519739159347, -53⟩
    else if urgency = "long_term" then ⟨5404319552844595, -53⟩
    else ⟨1, -1⟩
  else if selectivity = "balanced" then
    if urgency = "crisis" then ⟨7566047373982433, -55⟩
    else if urgency = "long_term" then ⟨6485183463413514, -54⟩
    else ⟨5404319552844595, -54⟩
  else
    if urgency = "crisis" then ⟨7566047373982433, -56⟩
    else if urgency = "long_term" then ⟨6485183463413514, -55⟩
    else ⟨5404319552844595, -55⟩

/-- Amended timeout table: the claimed `180/300/450` with the `×1.5`
comprehensive factor, except that the `×0.7` light factor is a binary64
multiplication truncated by `int(...)`, which yields `125/210/315` (the
crisis/light cell is `125`, not the exact `126`). -/
def specTimeoutAmended (urgency intensity : String) : ℤ :=
  if urgency = "crisis" then
    if intensity = "comprehensive" then 270 else if intensity = "light" then 125 else 180
  else if urgency = "long_term" then
    if intensity = "comprehensive" then 675 else if intensity = "light" then 315 else 450
  else
    if intensity = "comprehensive" then 450 else if intensity = "light" then 210 else 300

/-- Spec table: evaluation batch size per intensity tier. -/
def specEvalBatch (intensity : String) : ℤ :=
  if intensity = "light" then 20
  else if intensity = "standard" then 30
  else if intensity = "intensive" then 50
  else 100

/-- Spec table: max signals per PIR per intensity tier. -/
def specMaxSignals (intensity : String) : ℤ :=
  if intensity = "light" then 15
  else if intensity = "standard" then 25
  else if intensity = "intensive" then 50
  else 100

/-- The four intensity tiers. -/
def intensityTiers : List String := ["light", "standard", "intensive", "comprehensive"]

/-- The four selectivity tiers. -/
def selectivityTiers : List String :=
  ["very_selective", "selective", "balanced", "inclusive"]

/-- The three urgency tiers. -/
def urgencyTiers : List String := ["crisis", "strategic", "long_term"]

/-! ## `_ai_generate_unified_strategy`: required-field validation (C6)

The LLM call either raises (transport error, non-200, or a body that is not
valid JSON — all become `ValueError`) or returns the parsed JSON object.
The embedding keeps the part the claim is about: `none` for a raised call,
`some keys` for the key set of the returned object, and the required-field
check over it. -/
/-- The `required_fields` list of `_ai_generate_unified_strategy`. -/
def requiredStrategyFields : List String :=
  ["strategic_approach", "intelligence_domains", "urgency_level",
    "collection_intensity", "relevance_threshold"]

/-- The response validation of `_ai_generate_unified_strategy`: fail when the
call raised or returned falsy/invalid JSON, when `strategic_approach` is
absent, or at the first absent field of `required_fields`. -/
def ai_generate_unified_strategy (response : Option (List String)) :
    Except String (List String) :=
  match response with
  | none => Except.error "AI strategic analysis failed"
  | some keys =>
    if keys = [] ∨ ¬ "strategic_approach" ∈ keys then
      Except.error "AI returned invalid strategic analysis"
    else
      match requiredStrategyFields.find? (fun f => ! keys.contains f) with
      | some f => Except.error f
      | none => Except.ok keys

/-- Decidable equality for `Except`, for evaluating the embedded planner
validation on concrete inputs. -/
instance {e a : Type} [DecidableEq e] [DecidableEq a] : DecidableEq (Except e a) := fun x y =>
  match x, y with
  | Except.error u, Except.error v =>
    if h : u = v then isTrue (by rw [h]) else isFalse (by intro hc; injection hc; contradiction)
  | Except.ok u, Except.ok v =>
    if h : u = v then isTrue (by rw [h]) else isFalse (by intro hc; injection hc; contradiction)
  | Except.error _, Except.ok _ => isFalse (by intro hc; cases hc)
  | Except.ok _, Except.error _ => isFalse (by intro hc; cases hc)

/-! ## `sources/ai_rss_discovery.py`: feed classification (C8)

`_test_single_endpoint` reads the first 1024 bytes and checks the five tag
markers; `_validate_single_rss_url` reads the first 2048 bytes and also
accepts the two MIME tokens.  Bodies are modelled as the decoded character
sequence (`decode('utf-8', errors='ignore')`; the markers and example bodies
are ASCII, where bytes and characters coincide). -/
/-- The `rss_indicators` list of `_test_single_endpoint`. -/
def rssIndicatorsEndpoint : List String :=
  ["<rss", "<feed", "<channel>", "<item>", "<entry>"]

/-- The `rss_indicators` list of `_validate_single_rss_url`. -/
def rssIndicatorsDirect : List String :=
  ["<rss", "<feed", "<channel>", "<item>", "<entry>",
    "application/rss+xml", "application/atom+xml"]

/-- The `valid` field computed by `_test_single_endpoint`: HTTP 200 and one
of the five tag markers inside the lower-cased first 1024 bytes. -/
def test_single_endpoint_valid (status : ℕ) (body : List Char) : Bool :=
  status == 200 &&
    rssIndicatorsEndpoint.any
      (fun ind => listContainsSub ind.data (lowerChars (body.take 1024)))

/-- The `valid` field computed by `_validate_single_rss_url`: HTTP 200 and
one of the seven markers inside the lower-cased first 2048 bytes. -/
def validate_single_rss_url_valid (status : ℕ) (body : List Char) : Bool :=
  status == 200 &&
    rssIndicatorsDirect.any
      (fun ind => listContainsSub ind.data (lowerChars (body.take 2048)))

/-! ## JSON serialization (`json.dumps`) for the metadata blobs

`json.dumps` with default arguments: insertion-ordered keys, separators
`", "` and `": "`, `ensure_ascii=True` (non-ASCII and control characters as
`\uXXXX`, with surrogate pairs above U+FFFF). -/
/-- Lower-case hexadecimal digit. -/
def hexDigitChar (n : ℕ) : Char :=
  if n < 10 then Char.ofNat (48 + n) else Char.ofNat (87 + n)

/-- A `\uXXXX` escape for a code unit below `0x10000`. -/
def uEscape (n : ℕ) : List Char :=
  ['\\', 'u', hexDigitChar (n / 4096 % 16), hexDigitChar (n / 256 % 16),
    hexDigitChar (n / 16 % 16), hexDigitChar (n % 16)]

/-- How `json.dumps` renders one character inside a string. -/
def jsonEscapeChar (c : Char) : List Char :=
  if c = '"' then ['\\', '"']
  else if c = '\\' then ['\\', '\\']
  else if c.toNat = 10 then ['\\', 'n']
  else if c.toNat = 13 then ['\\', 'r']
  else if c.toNat = 9 then ['\\', 't']
  else if c.toNat = 8 then ['\\', 'b']
  else if c.toNat = 12 then ['\\', 'f']
  else if c.toNat < 32 ∨ 126 < c.toNat then
    if c.toNat < 65536 then uEscape c.toNat
    else uEscape (55296 + (c.toNat - 65536) / 1024) ++ uEscape (56320 + (c.toNat - 65536) % 1024)
  else [c]

/-- `json.dumps` of a string value. -/
def jsonDumpString (s : String) : String :=
  String.mk ('"' :: ((s.data.map jsonEscapeChar).flatten ++ ['"']))

/-- `json.dumps` of a list of strings. -/
def jsonDumpStringList (l : List String) : String :=
  "[" ++ String.intercalate ", " (l.map jsonDumpString) ++ "]"

/-- `json.dumps(ai_metadata)` as built by `_save_ai_signal`: note the
`ai_reasoning` key is the first entry of the blob. -/
def aiMetadataDumps (reasoning : String) (connections : List String)
    (decision_support intelligence_type urgency_match ts : String) : String :=
  "\x7b\"ai_reasoning\": " ++ jsonDumpString reasoning
    ++ ", \"strategic_connections\": " ++ jsonDumpStringList connections
    ++ ", \"decision_support_value\": " ++ jsonDumpString decision_support
    ++ ", \"intelligence_type\": " ++ jsonDumpString intelligence_type
    ++ ", \"urgency_match\": " ++ jsonDumpString urgency_match
    ++ ", \"evaluation_timestamp\": " ++ jsonDumpString ts ++ "\x7d"

/-- `json.dumps(ai_metadata)` as built by `rss_monitor._save_rss_signal`. -/
def rssMetadataDumps (reasoning : String) (connections : List String)
    (decision_support intelligence_type feed_url ts : String) : String :=
  "\x7b\"ai_reasoning\": " ++ jsonDumpString reasoning
    ++ ", \"strategic_connections\": " ++ jsonDumpStringList connections
    ++ ", \"decision_support_value\": " ++ jsonDumpString decision_support
    ++ ", \"intelligence_type\": " ++ jsonDumpString intelligence_type
    ++ ", \"evaluation_source\": \"rss_monitor\""
    ++ ", \"feed_url\": " ++ jsonDumpString feed_url
    ++ ", \"evaluation_timestamp\": " ++ jsonDumpString ts ++ "\x7d"

/-- `json.dumps({...})` as built by `create_sec_signal`; the nested
`ai_metadata` value is the serialization of the whole LLM result dict,
abstracted as `ai_result_json`. -/
def secMetadataDumps (form_type company_name cik ai_result_json : String) : String :=
  "\x7b\"form_type\": " ++ jsonDumpString form_type
    ++ ", \"company_name\": " ++ jsonDumpString company_name
    ++ ", \"cik\": " ++ jsonDumpString cik
    ++ ", \"ai_metadata\": " ++ ai_result_json ++ "\x7d"

/-! ## `supabase_client.py` and `core/ai_evaluator.py`: persistence model

The hosted database is modelled as in-memory tables with fresh integer ids;
`datetime` values are opaque strings passed in as `now`. -/
/-- A `signal_sources` row. -/
structure SourceRow where
  id : ℕ
  source_name : String
  source_type : String
  source_url : String
  last_checked : String
deriving DecidableEq

/-- A `signals` row. -/
structure SignalRow where
  id : ℕ
  indicator_id : String
  source_id : ℕ
  raw_signal_text : String
  match_score : ℚ
  observed_at : String
  session_id : Option String
  status : String
  article_url : Option String
  article_title : Option String
  article_content : Option String
  published_date : Option String
  ai_reasoning : Option String
deriving DecidableEq

/-- The persistence state. -/
structure Database where
  sources : List SourceRow
  signals : List SignalRow
  next_source_id : ℕ
  next_signal_id : ℕ
deriving DecidableEq

/-- `create_or_get_signal_source(source_name, source_url, source_type)`:
the lookup is by `source_name` alone; on a hit only `last_checked` of that
row is updated and its id returned; otherwise a new row is inserted. -/
def create_or_get_signal_source (source_name source_url source_type now : String)
    (db : Database) : Option ℕ × Database :=
  match db.sources.find? (fun r => r.source_name == source_name) with
  | some row =>
    (some row.id,
      { db with sources :=
          db.sources.map fun r =>
            if r.id == row.id then { r with last_checked := now } else r })
  | none =>
    (some db.next_source_id,
      { db with
          sources := db.sources ++
            [⟨db.next_source_id, source_name, source_type, source_url, now⟩],
          next_source_id := db.next_source_id + 1 })

/-- The `signal_data` dict passed to `create_signal` (absent keys are
`none`). -/
structure SignalData where
  indicator_id : Option String
  source_id : Option ℕ
  raw_signal_text : Option String
  match_score : Option ℚ
  observed_at : Option String
  session_id : Option String
  status : Option String
  article_url : Option String
  article_title : Option String
  article_content : Option String
  published_date : Option String
  ai_reasoning : Option String
deriving DecidableEq

/-- `create_signal(signal_data)`: reject when a required field is missing,
otherwise insert the mapped row; `raw_signal_text` is sliced to its first
500 characters at this single write boundary. -/
def create_signal (sd : SignalData) (now : String) (db : Database) :
    Option ℕ × Database :=
  match sd.indicator_id, sd.source_id with
  | some ind, some src =>
    (some db.next_signal_id,
      { db with
          signals := db.signals ++
            [{ id := db.next_signal_id
               indicator_id := ind
               source_id := src
               raw_signal_text := pyTake (sd.raw_signal_text.getD "") 500
               match_score := sd.match_score.getD 0
               observed_at := sd.observed_at.getD now
               session_id := sd.session_id
               status := sd.status.getD "new"
               article_url := sd.article_url
               article_title := sd.article_title
               article_content := sd.article_content
               published_date := sd.published_date
               ai_reasoning := sd.ai_reasoning }],
          next_signal_id := db.next_signal_id + 1 })
  | _, _ => (none, db)

/-! ## `core/ai_evaluator.py`: evaluation decision and signal writing -/
/-- An article record as produced by the NewsAPI mapping of
`_search_newsapi`. -/
structure ArticleRec where
  title : String
  description : String
  url : String
  published_date : Option String
  source : String
deriving DecidableEq

/-- The parsed LLM evaluation dict (absent keys are `none`; the `.get`
defaults are applied at the use sites, as in the code). -/
structure AiResult where
  relevance_score : Option ℚ
  recommendation : Option String
  reasoning : Option String
  strategic_connections : Option (List String)
  decision_support_value : Option String
  intelligence_type : Option String
  urgency_match : Option String
deriving DecidableEq

/-- The decision of `_ai_evaluate_single_article`: `False` when the LLM call
produced no result (`None`/`{}` — unparsable JSON, timeout, exception),
otherwise `recommendation == 'include' or (relevance_score > threshold and
recommendation != 'exclude')` with defaults `0.0` and `'uncertain'`. -/
def should_create_signal (ai_result : Option AiResult) (threshold : ℚ) : Bool :=
  match ai_result with
  | none => false
  | some r =>
    (r.recommendation.getD "uncertain" == "include")
      || (decide (r.relevance_score.getD 0 > threshold)
          && (r.recommendation.getD "uncertain" != "exclude"))

/-- `_save_ai_signal(article, pir, ai_result)`: resolve the source row by
the article's source name (with `source_url = article.url`,
`source_type = 'API'`), build the metadata blob — which includes the
reasoning under `ai_reasoning` — and insert the signal row through
`create_signal`.  The date re-parse keeps pre-normalized strings
unchanged, so it is the identity here. -/
def save_ai_signal (article : ArticleRec) (pir : PirRow) (ai_result : AiResult)
    (now : String) (db : Database) : Bool × Database :=
  match create_or_get_signal_source article.source article.url "API" now db with
  | (none, db1) => (false, db1)
  | (some source_id, db1) =>
    let ai_reasoning_text := ai_result.reasoning.getD ""
    let raw := aiMetadataDumps ai_reasoning_text
      (ai_result.strategic_connections.getD [])
      (ai_result.decision_support_value.getD "medium")
      (ai_result.intelligence_type.getD "general")
      (ai_result.urgency_match.getD "strategic") now
    let sd : SignalData :=
      { indicator_id := some pir.id
        source_id := some source_id
        raw_signal_text := some raw
        match_score := some (ai_result.relevance_score.getD 0)
        observed_at := some now
        session_id := pir.session_id
        status := some "ai_evaluated"
        article_url := some article.url
        article_title := some article.title
        article_content := some article.description
        published_date := article.published_date
        ai_reasoning := some ai_reasoning_text }
    match create_signal sd now db1 with
    | (some _, db2) => (true, db2)
    | (none, db2) => (false, db2)

/-- One element of the `asyncio.gather` result list:
`evalDict r` is the dict `_ai_evaluate_single_article` returned (with `r`
the LLM result it was built from, `none` on its error paths), `raised` an
exception object. -/
inductive EvalOutcome where
  | evalDict (ai_result : Option AiResult)
  | raised
deriving DecidableEq

/-- The result loop of `_evaluate_article_batch`: walk the results in task
order, break once `max_signals` is reached, save a signal for every dict
whose `should_create_signal` flag is set. -/
def process_batch_results (pir : PirRow) (threshold : ℚ) (max_signals : ℤ)
    (now : String) :
    List (ArticleRec × EvalOutcome) → ℕ → Database → ℕ × Database
  | [], count, db => (count, db)
  | (article, outcome) :: rest, count, db =>
    if max_signals ≤ (count : ℤ) then (count, db)
    else
      match outcome with
      | EvalOutcome.evalDict (some r) =>
        if should_create_signal (some r) threshold then
          match save_ai_signal article pir r now db with
          | (true, db2) =>
            process_batch_results pir threshold max_signals now rest (count + 1) db2
          | (false, db2) =>
            process_batch_results pir threshold max_signals now rest count db2
        else process_batch_results pir threshold max_signals now rest count db
      | EvalOutcome.evalDict none =>
        process_batch_results pir threshold max_signals now rest count db
      | EvalOutcome.raised =>
        process_batch_results pir threshold max_signals now rest count db

/-- `_evaluate_article_batch`: no tasks are created when the budget is
already spent (`signals_created >= max_signals` at task creation), otherwise
all articles of the batch are evaluated and the results processed in
order. -/
def evaluate_article_batch (pir : PirRow) (threshold : ℚ) (max_signals : ℤ)
    (now : String) (pairs : List (ArticleRec × EvalOutcome)) (db : Database) :
    ℕ × Database :=
  if max_signals ≤ 0 then (0, db)
  else process_batch_results pir threshold max_signals now pairs 0 db

/-- Partition a list into chunks of `k` (`articles[i:i + batch_size]` for
`i in range(0, len(articles), batch_size)`); fuel keeps the recursion
kernel-computable.  For `k = 0` Python's `range` raises and the caught
exception yields no batches. -/
def chunkFuel {α : Type} : ℕ → ℕ → List α → List (List α)
  | 0, _, _ => []
  | _, _, [] => []
  | fuel + 1, k, x :: xs => (x :: xs).take k :: chunkFuel fuel k ((x :: xs).drop k)

/-- The batch partition of the evaluation loop. -/
def chunkList {α : Type} (k : ℕ) (l : List α) : List (List α) :=
  if k = 0 then [] else chunkFuel l.length k l

/-- The batch loop of `evaluate_articles_for_pir`: run batches sequentially,
breaking once `max_signals` is reached, and pass the remaining budget
`max_signals - signals_created` to each batch. -/
def run_batches (pir : PirRow) (threshold : ℚ) (max_signals : ℤ) (now : String) :
    List (List (ArticleRec × EvalOutcome)) → ℕ → Database → ℕ × Database
  | [], s, db => (s, db)
  | b :: bs, s, db =>
    if max_signals ≤ (s : ℤ) then (s, db)
    else
      match evaluate_article_batch pir threshold (max_signals - s) now b db with
      | (batch_signals, db1) =>
        run_batches pir threshold max_signals now bs (s + batch_signals) db1

/-- `evaluate_articles_for_pir(articles, pir, strategic_context,
collection_params)`: the per-PIR evaluation entry point.  The article list
is paired with the outcome of each article's LLM evaluation. -/
def evaluate_articles_for_pir (pairs : List (ArticleRec × EvalOutcome))
    (pir : PirRow) (threshold : ℚ) (max_signals : ℤ) (batch_size : ℕ)
    (now : String) (db : Database) : ℕ × Database :=
  if pairs.isEmpty then (0, db)
  else run_batches pir threshold max_signals now (chunkList batch_size pairs) 0 db

/-- Signals recorded for PIR `p` and document URL `u`. -/
def count_pir_url_signals (signals : List SignalRow) (p u : String) : ℕ :=
  (signals.filter (fun r => r.indicator_id == p && r.article_url == some u)).length

/-- `_deduplicate_articles` of the smart collector: keep the first article
per URL, dropping articles with an empty URL. -/
def dedupAux : List ArticleRec → List String → List ArticleRec
  | [], _ => []
  | a :: rest, seen =>
    if a.url ≠ "" ∧ a.url ∉ seen then a :: dedupAux rest (seen ++ [a.url])
    else dedupAux rest seen

/-- `_deduplicate_articles(articles)`. -/
def deduplicate_articles (articles : List ArticleRec) : List ArticleRec :=
  dedupAux articles []

/-! ## `sources/external/rss_monitor.py` and SEC signal writing -/
/-- A parsed RSS entry (the fields `_save_rss_signal` uses). -/
structure RssEntry where
  feed_title : Option String
  link : String
deriving DecidableEq

/-- `_save_rss_signal(entry, pir, ai_result, feed_url)`; `netloc` stands for
`urlparse(feed_url).netloc`. -/
def save_rss_signal (entry : RssEntry) (pir : PirRow) (ai_result : AiResult)
    (feed_url netloc now : String) (db : Database) : Bool × Database :=
  let source_name := entry.feed_title.getD ("RSS Feed - " ++ netloc)
  match create_or_get_signal_source source_name feed_url "RSS" now db with
  | (none, db1) => (false, db1)
  | (some source_id, db1) =>
    let sd : SignalData :=
      { indicator_id := some pir.id
        source_id := some source_id
        raw_signal_text := some (rssMetadataDumps (ai_result.reasoning.getD "")
          (ai_result.strategic_connections.getD [])
          (ai_result.decision_support_value.getD "medium")
          (ai_result.intelligence_type.getD "general") feed_url now)
        match_score := some (ai_result.relevance_score.getD 0)
        observed_at := some now
        session_id := pir.session_id
        status := some "rss_ai_evaluated"
        article_url := some entry.link
        article_title := none
        article_content := none
        published_date := none
        ai_reasoning := none }
    match create_signal sd now db1 with
    | (some _, db2) => (true, db2)
    | (none, db2) => (false, db2)

/-- An SEC filing record (the fields `create_sec_signal` uses). -/
structure FilingRec where
  title : String
  description : String
  url : String
  published_date : Option String
  company_name : String
  cik : String
  form_type : String
deriving DecidableEq

/-- `create_sec_source(company_name, cik)`: lookup by the derived source
name; an existing row is returned unchanged, otherwise a row is
inserted. -/
def create_sec_source (company_name cik now : String) (db : Database) :
    Option ℕ × Database :=
  let source_name := company_name ++ " SEC Filings"
  let source_url := "https://www.sec.gov/cgi-bin/browse-edgar?CIK=" ++ cik
  match db.sources.find? (fun r => r.source_name == source_name) with
  | some row => (some row.id, db)
  | none =>
    (some db.next_source_id,
      { db with
          sources := db.sources ++
            [⟨db.next_source_id, source_name, "SEC_EDGAR", source_url, now⟩],
          next_source_id := db.next_source_id + 1 })

/-- `create_sec_signal(filing_data, pir, ai_result)`; `ai_result_json`
stands for `json.dumps` of the whole LLM result dict nested under
`ai_metadata`. -/
def create_sec_signal (filing : FilingRec) (pir : PirRow) (ai_result : AiResult)
    (ai_result_json now : String) (db : Database) : Option ℕ × Database :=
  match create_sec_source filing.company_name filing.cik now db with
  | (none, db1) => (none, db1)
  | (some source_id, db1) =>
    let sd : SignalData :=
      { indicator_id := some pir.id
        source_id := some source_id
        article_title := some filing.title
        article_content := some (pyTake filing.description 2000)
        article_url := some filing.url
        published_date := filing.published_date
        match_score := some (ai_result.relevance_score.getD 0)
        ai_reasoning := some (ai_result.reasoning.getD "")
        raw_signal_text := some (secMetadataDumps filing.form_type
          filing.company_name filing.cik ai_result_json)
        observed_at := some now
        session_id := pir.session_id
        status := some "sec_filing" }
    create_signal sd now db1

/-- Repeated invocation of `create_or_get_signal_source` with the same
arguments (the return value of each call is dropped). -/
def iterate_create_or_get (source_name source_url source_type now : String) :
    ℕ → Database → Database
  | 0, db => db
  | k + 1, db =>
    iterate_create_or_get source_name source_url source_type now k
      (create_or_get_signal_source source_name source_url source_type now db).2

/-! ## `sources/historical/ai_smart_collector.py`: the per-PIR collector -/
/-- A validated RSS source as produced by discovery. -/
structure ValidatedSource where
  url : String
  title : String
deriving DecidableEq

/-- `_collect_from_rss_sources(rss_sources, max_articles, days_back)`: the
RSS collection step is a stub that always returns the empty list. -/
def collect_from_rss_sources (rss_sources : List ValidatedSource)
    (max_articles days_back : ℕ) : List ArticleRec :=
  []

/-- The parts of `_collect_for_strategic_pir`'s result record the collector
computes before evaluation; `api_articles` is the NewsAPI collection
result. -/
structure PirCollectionResult where
  articles_for_evaluation : List ArticleRec
  breakdown_rss : Option ℕ
  breakdown_newsapi : ℕ
  articles_collected : ℕ
deriving DecidableEq

/-- `_collect_for_strategic_pir`: gather RSS articles (when sources exist)
and API articles, record the per-source breakdown, and hand the combined
list to the evaluator. -/
def collect_for_strategic_pir (pir : PirRow) (rss_sources : List ValidatedSource)
    (api_articles : List ArticleRec) (max_articles days_back : ℕ) :
    PirCollectionResult :=
  let rss_articles :=
    if rss_sources.isEmpty then []
    else collect_from_rss_sources rss_sources (max_articles / 2) days_back
  let all_articles := rss_articles ++ api_articles
  { articles_for_evaluation := all_articles
    breakdown_rss := if rss_sources.isEmpty then none else some rss_articles.length
    breakdown_newsapi := api_articles.length
    articles_collected := all_articles.length }

/-- A dummy signal row used as the `getLastD` default in concrete
evaluations. -/
def dummySignalRow : SignalRow :=
  ⟨0, "", 0, "", 0, "", none, "", none, none, none, none, none⟩

/-- A concrete article used in concrete counterexamples and witnesses. -/
def sampleArticle : ArticleRec :=
  { title := "Pump efficiency gains announced"
    description := "A new hydraulic pump line improves efficiency."
    url := "https://example.com/pump"
    published_date := some "2024-01-01T00:00:00"
    source := "NewsAPI - Example Wire" }

/-- A concrete PIR row. -/
def samplePir : PirRow :=
  { id := "pir-1", indicator_text := "Monitor pump efficiency ratings", session_id := none }

/-- A concrete LLM evaluation result recommending inclusion. -/
def sampleAiResult : AiResult :=
  { relevance_score := some (4/5)
    recommendation := some "include"
    reasoning := some "Directly relevant to the monitored PIR"
    strategic_connections := some ["efficiency"]
    decision_support_value := some "high"
    intelligence_type := some "technology"
    urgency_match := some "strategic"}

/-- The empty persistence state. -/
def emptyDb : Database := ⟨[], [], 0, 0⟩

/-- A concrete `signal_data` dict for the C9 witness. -/
def sampleSignalData : SignalData :=
  { indicator_id := some "pir-1"
    source_id := some 0
    raw_signal_text := some "abc"
    match_score := none
    observed_at := none
    session_id := none
    status := none
    article_url := none
    article_title := none
    article_content := none
    published_date := none
    ai_reasoning := none }

theorem listContainsSub_iff (needle l : List Char) :
    listContainsSub needle l = true ↔ needle <:+: l := by
  induction l with
  | nil =>
    simp [listContainsSub, List.isEmpty_iff, List.infix_nil]
  | cons c t ih =>
    simp only [listContainsSub, Bool.or_eq_true, ih,
      List.isPrefixOf_iff_prefix, List.infix_cons_iff]

theorem bitsAux_congr : ∀ f g n : ℕ, n ≤ f → n ≤ g → bitsAux f n = bitsAux g n := by
  intro f
  induction f with
  | zero =>
    intro g n hf _
    interval_cases n
    cases g <;> simp [bitsAux]
  | succ f ih =>
    intro g n hf hg
    cases g with
    | zero =>
      interval_cases n
      simp [bitsAux]
    | succ g =>
      by_cases hn : n = 0
      · simp [bitsAux, hn]
      · have h2 : n / 2 < n := Nat.div_lt_self (Nat.pos_of_ne_zero hn) one_lt_two
        have hf' : n / 2 ≤ f := by omega
        have hg' : n / 2 ≤ g := by omega
        simp only [bitsAux, hn, if_false, ih g (n / 2) hf' hg']

theorem bits_zero : bits 0 = 0 := rfl

theorem bits_succ_div (n : ℕ) (hn : n ≠ 0) : bits n = bits (n / 2) + 1 := by
  obtain ⟨m, rfl⟩ := Nat.exists_eq_succ_of_ne_zero hn
  show bitsAux (m + 1) (m + 1) = bits ((m + 1) / 2) + 1
  have h2 : (m + 1) / 2 ≤ m := by omega
  simp only [bitsAux, Nat.succ_ne_zero, if_false]
  rw [bitsAux_congr m ((m + 1) / 2) ((m + 1) / 2) h2 le_rfl]
  rfl

theorem bits_lt (n : ℕ) : n < 2 ^ bits n := by
  induction n using Nat.strong_induction_on with
  | _ n ih =>
    by_cases hn : n = 0
    · simp [hn, bits_zero]
    · rw [bits_succ_div n hn, pow_succ]
      have h2 : n / 2 < n := Nat.div_lt_self (Nat.pos_of_ne_zero hn) one_lt_two
      have := ih (n / 2) h2
      omega

theorem le_bits (n : ℕ) (hn : n ≠ 0) : 2 ^ (bits n - 1) ≤ n := by
  induction n using Nat.strong_induction_on with
  | _ n ih =>
    by_cases h1 : n / 2 = 0
    · have : n = 1 := by omega
      subst this
      simp [bits_succ_div 1 one_ne_zero, bits_zero]
    · rw [bits_succ_div n hn]
      have h2 : n / 2 < n := Nat.div_lt_self (Nat.pos_of_ne_zero hn) one_lt_two
      have hrec := ih (n / 2) h2 h1
      have hb : bits (n / 2) ≠ 0 := by
        rw [bits_succ_div (n / 2) h1]
        exact Nat.succ_ne_zero _
      have he : bits (n / 2) + 1 - 1 = bits (n / 2) - 1 + 1 := by omega
      rw [he, pow_succ]
      omega

theorem Dyadic.toRat_mk (m e : ℤ) : (Dyadic.mk m e).toRat = (m : ℚ) * 2 ^ e := rfl

theorem Dyadic.toRat_pos {d : Dyadic} : 0 < d.toRat ↔ 0 < d.m := by
  rw [Dyadic.toRat]
  have h2 : (0 : ℚ) < 2 ^ d.e := zpow_pos two_pos d.e
  constructor
  · intro h
    by_contra hneg
    push_neg at hneg
    have : (d.m : ℚ) ≤ 0 := by exact_mod_cast hneg
    nlinarith
  · intro h
    have : (0 : ℚ) < (d.m : ℚ) := by exact_mod_cast h
    positivity

theorem Dyadic.toRat_neg {d : Dyadic} : d.toRat < 0 ↔ d.m < 0 := by
  rw [Dyadic.toRat]
  have h2 : (0 : ℚ) < 2 ^ d.e := zpow_pos two_pos d.e
  constructor
  · intro h
    by_contra hneg
    push_neg at hneg
    have : (0 : ℚ) ≤ (d.m : ℚ) := by exact_mod_cast hneg
    nlinarith
  · intro h
    have : (d.m : ℚ) < 0 := by exact_mod_cast h
    nlinarith

theorem rnePosNat_bound (a k : ℕ) :
    |((rnePosNat a k : ℕ) : ℚ) - (a : ℚ) / 2 ^ k| ≤ 1 / 2 := by
  have hkpos : (0 : ℚ) < 2 ^ k := by positivity
  have hdm : 2 ^ k * (a / 2 ^ k) + a % 2 ^ k = a := Nat.div_add_mod a (2 ^ k)
  have hr : a % 2 ^ k < 2 ^ k := Nat.mod_lt _ (Nat.pos_pow_of_pos k two_pos)
  have hcast : ((a : ℚ)) = 2 ^ k * ((a / 2 ^ k : ℕ) : ℚ) + ((a % 2 ^ k : ℕ) : ℚ) := by
    exact_mod_cast hdm.symm
  have hav : (a : ℚ) / 2 ^ k = (a / 2 ^ k : ℕ) + ((a % 2 ^ k : ℕ) : ℚ) / 2 ^ k := by
    rw [div_eq_iff hkpos.ne', hcast, add_mul, div_mul_cancel₀ _ hkpos.ne']
    ring
  have ht0 : 0 ≤ ((a % 2 ^ k : ℕ) : ℚ) / 2 ^ k := by positivity
  unfold rnePosNat
  split_ifs with h1 h2 h3
  · have ht : ((a % 2 ^ k : ℕ) : ℚ) / 2 ^ k ≤ 1 / 2 := by
      rw [div_le_iff₀ hkpos]
      have : ((2 * (a % 2 ^ k) : ℕ) : ℚ) ≤ ((2 ^ k : ℕ) : ℚ) := by exact_mod_cast h1.le
      push_cast at this
      linarith
    rw [hav, abs_le]
    constructor <;> linarith
  · have ht : 1 / 2 ≤ ((a % 2 ^ k : ℕ) : ℚ) / 2 ^ k := by
      rw [le_div_iff₀ hkpos]
      have : ((2 ^ k : ℕ) : ℚ) ≤ ((2 * (a % 2 ^ k) : ℕ) : ℚ) := by exact_mod_cast h2.le
      push_cast at this
      linarith
    have ht1 : ((a % 2 ^ k : ℕ) : ℚ) / 2 ^ k < 1 := by
      rw [div_lt_one hkpos]
      exact_mod_cast hr
    rw [hav, abs_le]
    push_cast
    constructor <;> linarith
  · have htie : ((a % 2 ^ k : ℕ) : ℚ) / 2 ^ k = 1 / 2 := by
      have h22 : 2 * (a % 2 ^ k) = 2 ^ k := by omega
      rw [div_eq_div_iff hkpos.ne' (two_ne_zero)]
      have h23 := congrArg (Nat.cast (R := ℚ)) h22
      push_cast at h23
      linarith
    rw [hav, htie, abs_le]
    constructor <;> linarith
  · have htie : ((a % 2 ^ k : ℕ) : ℚ) / 2 ^ k = 1 / 2 := by
      have h22 : 2 * (a % 2 ^ k) = 2 ^ k := by omega
      rw [div_eq_div_iff hkpos.ne' (two_ne_zero)]
      have h23 := congrArg (Nat.cast (R := ℚ)) h22
      push_cast at h23
      linarith
    rw [hav, htie, abs_le]
    push_cast
    constructor <;> linarith

theorem roundToDouble_pos_error (d : Dyadic) (hm : 0 < d.m) :
    |(roundToDouble d).toRat - d.toRat| ≤ d.toRat * (1 / 2 ^ 53) := by
  have hmne : d.m ≠ 0 := hm.ne'
  have hnotlt : ¬ d.m < 0 := not_lt.mpr hm.le
  have haZ : (d.m.natAbs : ℤ) = d.m := by omega
  have haQ : ((d.m.natAbs : ℕ) : ℚ) = (d.m : ℚ) := by
    rw [Int.cast_natAbs]
    exact_mod_cast abs_of_nonneg hm.le
  by_cases hb : bits d.m.natAbs ≤ 53
  · have hres : roundToDouble d = d := by
      simp [roundToDouble, hmne, hb]
    rw [hres, sub_self, abs_zero]
    have hpos : 0 < d.toRat := Dyadic.toRat_pos.mpr hm
    positivity
  · have hres : roundToDouble d =
        ⟨(rnePosNat d.m.natAbs (bits d.m.natAbs - 53) : ℤ),
          d.e + ((bits d.m.natAbs : ℤ) - 53)⟩ := by
      simp [roundToDouble, hmne, hb, hnotlt]
      omega
    set a := d.m.natAbs with ha
    set k := bits a - 53 with hk
    have hkZ : ((bits a : ℤ) - 53) = (k : ℤ) := by omega
    have hane : a ≠ 0 := Int.natAbs_ne_zero.mpr hmne
    have hkpos : (0 : ℚ) < (2 : ℚ) ^ k := by positivity
    have hE : (0 : ℚ) < (2 : ℚ) ^ d.e := zpow_pos two_pos _
    have hzz : ((2 : ℚ)) ^ (d.e + (k : ℤ)) = 2 ^ d.e * 2 ^ (k : ℕ) := by
      rw [zpow_add₀ (two_ne_zero), zpow_natCast]
    rw [hres, Dyadic.toRat_mk, Dyadic.toRat, hkZ, hzz, ← haQ]
    push_cast
    have key : (rnePosNat a k : ℚ) * (2 ^ d.e * 2 ^ k) - (a : ℚ) * 2 ^ d.e
        = ((rnePosNat a k : ℚ) - (a : ℚ) / 2 ^ k) * (2 ^ d.e * 2 ^ k) := by
      field_simp
      ring
    rw [key, abs_mul, abs_of_pos (by positivity : (0:ℚ) < 2 ^ d.e * 2 ^ k)]
    have hstep : |(rnePosNat a k : ℚ) - (a : ℚ) / 2 ^ k| * (2 ^ d.e * 2 ^ k)
        ≤ (1 / 2) * (2 ^ d.e * 2 ^ k) :=
      mul_le_mul_of_nonneg_right (rnePosNat_bound a k) (by positivity)
    refine hstep.trans ?_
    have hage : (2 : ℚ) ^ (52 + k) ≤ (a : ℚ) := by
      have h1 : 2 ^ (bits a - 1) ≤ a := le_bits a hane
      have h2 : bits a - 1 = 52 + k := by omega
      rw [h2] at h1
      exact_mod_cast h1
    have hh : (2 : ℚ) ^ 52 * 2 ^ k * 2 ^ d.e ≤ (a : ℚ) * 2 ^ d.e := by
      refine mul_le_mul_of_nonneg_right ?_ hE.le
      calc (2 : ℚ) ^ 52 * 2 ^ k = 2 ^ (52 + k) := (pow_add 2 52 k).symm
        _ ≤ (a : ℚ) := hage
    have hv52 : (2 : ℚ) ^ (52 : ℕ) = 4503599627370496 := by norm_num
    have hv53 : (2 : ℚ) ^ (53 : ℕ) = 9007199254740992 := by norm_num
    rw [hv52] at hh
    rw [hv53]
    linarith

theorem roundToDouble_nonpos (d : Dyadic) (hm : d.m ≤ 0) :
    (roundToDouble d).toRat ≤ 0 := by
  by_cases h0 : d.m = 0
  · simp [roundToDouble, h0, Dyadic.toRat_mk]
  · have hneg : d.m < 0 := lt_of_le_of_ne hm h0
    by_cases hb : bits d.m.natAbs ≤ 53
    · have hres : roundToDouble d = d := by
        simp [roundToDouble, h0, hb]
      rw [hres, Dyadic.toRat]
      have h2 : (0 : ℚ) < 2 ^ d.e := zpow_pos two_pos _
      have hq : (d.m : ℚ) ≤ 0 := by exact_mod_cast hm
      nlinarith
    · have hres : roundToDouble d =
          ⟨-(rnePosNat d.m.natAbs (bits d.m.natAbs - 53) : ℤ),
            d.e + ((bits d.m.natAbs : ℤ) - 53)⟩ := by
        simp [roundToDouble, h0, hb, hneg]
        omega
      rw [hres, Dyadic.toRat_mk]
      have h2 : (0 : ℚ) < 2 ^ (d.e + ((bits d.m.natAbs : ℤ) - 53)) :=
        zpow_pos two_pos _
      have hr : (0 : ℚ) ≤ ((rnePosNat d.m.natAbs (bits d.m.natAbs - 53) : ℕ) : ℚ) :=
        Nat.cast_nonneg _
      push_cast
      nlinarith

theorem Dyadic.toRat_nonpos {d : Dyadic} : d.toRat ≤ 0 ↔ d.m ≤ 0 := by
  rw [← not_lt, ← not_lt, Dyadic.toRat_pos]

theorem dyLt_iff (a b : Dyadic) : dyLt a b = true ↔ a.toRat < b.toRat := by
  rw [dyLt, decide_eq_true_eq]
  have h2 : (0 : ℚ) < (2 : ℚ) ^ (-(min a.e b.e)) := zpow_pos two_pos _
  have key : ∀ d : Dyadic, min a.e b.e ≤ d.e →
      ((d.m * 2 ^ (d.e - min a.e b.e).toNat : ℤ) : ℚ)
        = d.toRat * 2 ^ (-(min a.e b.e)) := by
    intro d hd
    have ht : ((d.e - min a.e b.e).toNat : ℤ) = d.e - min a.e b.e :=
      Int.toNat_of_nonneg (by omega)
    push_cast
    rw [← zpow_natCast (2 : ℚ) (d.e - min a.e b.e).toNat, ht, Dyadic.toRat,
      mul_assoc, ← zpow_add₀ (two_ne_zero : (2 : ℚ) ≠ 0)]
    rw [sub_eq_add_neg]
  constructor
  · intro h
    have hq : ((a.m * 2 ^ (a.e - min a.e b.e).toNat : ℤ) : ℚ)
        < ((b.m * 2 ^ (b.e - min a.e b.e).toNat : ℤ) : ℚ) := by exact_mod_cast h
    rw [key a (min_le_left _ _), key b (min_le_right _ _)] at hq
    exact lt_of_mul_lt_mul_right (by linarith [hq]) h2.le
  · intro h
    have hq : a.toRat * 2 ^ (-(min a.e b.e)) < b.toRat * 2 ^ (-(min a.e b.e)) :=
      mul_lt_mul_of_pos_right h h2
    rw [← key a (min_le_left _ _), ← key b (min_le_right _ _)] at hq
    exact_mod_cast hq

theorem toRat_dySub (a b : Dyadic) : (dySub a b).toRat = a.toRat - b.toRat := by
  rw [dySub]
  split_ifs with h
  · have ht : ((b.e - a.e).toNat : ℤ) = b.e - a.e := Int.toNat_of_nonneg (by omega)
    rw [Dyadic.toRat_mk, Dyadic.toRat, Dyadic.toRat]
    push_cast
    rw [sub_mul, ← zpow_natCast (2 : ℚ) (b.e - a.e).toNat, ht, mul_assoc,
      ← zpow_add₀ (two_ne_zero : (2 : ℚ) ≠ 0)]
    ring_nf
  · have ht : ((a.e - b.e).toNat : ℤ) = a.e - b.e := Int.toNat_of_nonneg (by omega)
    rw [Dyadic.toRat_mk, Dyadic.toRat, Dyadic.toRat]
    push_cast
    rw [sub_mul, ← zpow_natCast (2 : ℚ) (a.e - b.e).toNat, ht, mul_assoc,
      ← zpow_add₀ (two_ne_zero : (2 : ℚ) ≠ 0)]
    ring_nf

theorem toRat_prodDyadic (a b : Dyadic) :
    (Dyadic.mk (a.m * b.m) (a.e + b.e)).toRat = a.toRat * b.toRat := by
  rw [Dyadic.toRat_mk, Dyadic.toRat, Dyadic.toRat,
    zpow_add₀ (two_ne_zero : (2 : ℚ) ≠ 0)]
  push_cast
  ring

theorem fmul_ge (a b : Dyadic) (ha : 0 < a.m) (hb : 0 < b.m) :
    a.toRat * b.toRat * (1 - 1 / 2 ^ 53) ≤ (fmul a b).toRat := by
  have hp : 0 < (Dyadic.mk (a.m * b.m) (a.e + b.e)).m := mul_pos ha hb
  have herr := roundToDouble_pos_error ⟨a.m * b.m, a.e + b.e⟩ hp
  rw [toRat_prodDyadic] at herr
  rw [abs_le] at herr
  have := herr.1
  rw [fmul]
  nlinarith [this]

theorem specMaxDocs_closed (intensity : String) (c : ℤ)
    (hb : specBaseVolume intensity = 10 * c) (n : ℕ) :
    specMaxDocs intensity n
      = if 5 < n then (if n ≤ 9 then c * (15 - (n : ℤ)) else 5 * c) else 10 * c := by
  rw [specMaxDocs, hb]
  split_ifs with h5 h9
  · have hn : ((n : ℚ)) ≤ 9 := by exact_mod_cast Nat.cast_le.mpr h9
    rw [max_eq_right (by linarith : (1:ℚ)/2 ≤ 1 - ((n : ℚ) - 5) / 10)]
    have hval : ((10 * c : ℤ) : ℚ) * (1 - ((n : ℚ) - 5) / 10)
        = ((c * (15 - (n : ℤ)) : ℤ) : ℚ) := by
      push_cast
      ring
    rw [hval, Int.floor_intCast]
  · have hn : (10 : ℚ) ≤ (n : ℚ) := by exact_mod_cast Nat.cast_le.mpr (by omega : 10 ≤ n)
    rw [max_eq_left (by linarith : 1 - ((n : ℚ) - 5) / 10 ≤ (1:ℚ)/2)]
    have hval : ((10 * c : ℤ) : ℚ) * ((1:ℚ)/2) = ((5 * c : ℤ) : ℚ) := by
      push_cast
      ring
    rw [hval, Int.floor_intCast]
  · rfl

theorem scaling_factor_tail (n : ℕ) (h16 : 16 ≤ n) :
    pyMax float05 (fsub ⟨1, 0⟩ (fmul (roundToDouble ⟨(n : ℤ) - 5, 0⟩) float01))
      = float05 := by
  have hm : 0 < ((n : ℤ) - 5) := by omega
  have hval : (Dyadic.mk ((n : ℤ) - 5) 0).toRat = (((n : ℤ) - 5 : ℤ) : ℚ) := by
    rw [Dyadic.toRat_mk, zpow_zero, mul_one]
  have h11 : (11 : ℚ) ≤ (((n : ℤ) - 5 : ℤ) : ℚ) := by
    have : (11 : ℤ) ≤ (n : ℤ) - 5 := by omega
    exact_mod_cast this
  have herr := roundToDouble_pos_error ⟨(n : ℤ) - 5, 0⟩ hm
  rw [hval, abs_le] at herr
  set s := roundToDouble ⟨(n : ℤ) - 5, 0⟩ with hs
  have hvpos : (0 : ℚ) < (((n : ℤ) - 5 : ℤ) : ℚ) := by linarith
  have hsge : (11 : ℚ) * (1 - 1 / 2 ^ 53) ≤ s.toRat := by nlinarith [herr.1, herr.2]
  have hspos : 0 < s.m := by
    rw [← Dyadic.toRat_pos]
    nlinarith
  have hf01m : 0 < float01.m := by norm_num [float01]
  have hf01v : float01.toRat = 3602879701896397 / 36028797018963968 := by
    rw [float01, Dyadic.toRat_mk]
    norm_num
  have ht := fmul_ge s float01 hspos hf01m
  have hf01pos : (0 : ℚ) < float01.toRat := by rw [hf01v]; norm_num
  have ht1 : (1 : ℚ) < (fmul s float01).toRat := by
    have hstep : (11 : ℚ) * (1 - 1 / 2 ^ 53) * float01.toRat * (1 - 1 / 2 ^ 53)
        ≤ s.toRat * float01.toRat * (1 - 1 / 2 ^ 53) := by
      have hfac : (0 : ℚ) ≤ float01.toRat * (1 - 1 / 2 ^ 53) := by
        have : (0:ℚ) < 1 - 1 / 2 ^ 53 := by norm_num
        positivity
      nlinarith [hsge, hfac]
    have hnum : (1 : ℚ) < (11 : ℚ) * (1 - 1 / 2 ^ 53) * float01.toRat * (1 - 1 / 2 ^ 53) := by
      rw [hf01v]
      norm_num
    linarith [ht, hstep]
  have h1v : (Dyadic.mk 1 0).toRat = 1 := by
    rw [Dyadic.toRat_mk, zpow_zero, mul_one]
    norm_num
  have hw : (dySub ⟨1, 0⟩ (fmul s float01)).toRat < 0 := by
    rw [toRat_dySub, h1v]
    linarith
  have hwm : (dySub ⟨1, 0⟩ (fmul s float01)).m < 0 := Dyadic.toRat_neg.mp hw
  have hu : (fsub ⟨1, 0⟩ (fmul s float01)).toRat ≤ 0 := by
    rw [fsub]
    exact roundToDouble_nonpos _ hwm.le
  have h05v : float05.toRat = 1 / 2 := by
    rw [float05, Dyadic.toRat_mk]
    norm_num
  have hnotlt : ¬ (dyLt float05 (fsub ⟨1, 0⟩ (fmul s float01)) = true) := by
    rw [dyLt_iff, h05v]
    push_neg
    linarith
  rw [pyMax, if_neg hnotlt]

theorem calculate_collection_volume_spec_standard (n : ℕ) :
    calculate_collection_volume "standard" n = specMaxDocs "standard" n := by
  rw [specMaxDocs_closed "standard" 50 (by decide) n]
  by_cases h5 : 5 < n
  · rcases lt_or_ge n 16 with h16 | h16
    · interval_cases n <;> decide
    · rw [if_pos h5, if_neg (by omega : ¬ n ≤ 9)]
      simp [calculate_collection_volume, h5]
      rw [scaling_factor_tail n h16]
      decide
  · rw [if_neg h5]
    simp [calculate_collection_volume, h5]

theorem calculate_collection_volume_spec_light (n : ℕ) :
    calculate_collection_volume "light" n = specMaxDocs "light" n := by
  rw [specMaxDocs_closed "light" 20 (by decide) n]
  by_cases h5 : 5 < n
  · rcases lt_or_ge n 16 with h16 | h16
    · interval_cases n <;> decide
    · rw [if_pos h5, if_neg (by omega : ¬ n ≤ 9)]
      simp [calculate_collection_volume, h5]
      rw [scaling_factor_tail n h16]
      decide
  · rw [if_neg h5]
    simp [calculate_collection_volume, h5]

theorem calculate_collection_volume_spec_intensive (n : ℕ) :
    calculate_collection_volume "intensive" n = specMaxDocs "intensive" n := by
  rw [specMaxDocs_closed "intensive" 100 (by decide) n]
  by_cases h5 : 5 < n
  · rcases lt_or_ge n 16 with h16 | h16
    · interval_cases n <;> decide
    · rw [if_pos h5, if_neg (by omega : ¬ n ≤ 9)]
      simp [calculate_collection_volume, h5]
      rw [scaling_factor_tail n h16]
      decide
  · rw [if_neg h5]
    simp [calculate_collection_volume, h5]

theorem calculate_collection_volume_spec_comprehensive (n : ℕ) :
    calculate_collection_volume "comprehensive" n = specMaxDocs "comprehensive" n := by
  rw [specMaxDocs_closed "comprehensive" 200 (by decide) n]
  by_cases h5 : 5 < n
  · rcases lt_or_ge n 16 with h16 | h16
    · interval_cases n <;> decide
    · rw [if_pos h5, if_neg (by omega : ¬ n ≤ 9)]
      simp [calculate_collection_volume, h5]
      rw [scaling_factor_tail n h16]
      decide
  · rw [if_neg h5]
    simp [calculate_collection_volume, h5]

set_option maxRecDepth 8000 in
/-- C1, counterexample: the contract tables are not exact.  The claim
derives `timeoutSeconds = 180 × 0.7 = 126` for a crisis/light strategy, but
`_calculate_timeout` computes `int(180 * 0.7)` in binary64 arithmetic,
which truncates `125.99999999999999` to `125`; and for a
very_selective/crisis strategy the claim derives `threshold = 0.7 × 0.7 =
0.49`, but `_calculate_relevance_threshold` computes the binary64 product
`8827055269646171 / 2 ^ 54 = 0.48999999999999994`, strictly below the exact
`0.49`. -/
theorem C1_exact_tables_counterexample :
    (calculate_timeout "crisis" "light" = 125 ∧ (180 : ℚ) * (7/10) = 126)
    ∧ (calculate_relevance_threshold "very_selective" "crisis"
          = ⟨8827055269646171, -54⟩
        ∧ specThreshold "very_selective" "crisis" = 49/100
        ∧ Dyadic.toRat ⟨8827055269646171, -54⟩ < 49/100) := by
  refine ⟨⟨by decide, by norm_num⟩, by decide, ?_, ?_⟩
  · simp [specThreshold] <;> norm_num [min_def, max_def]
  · rw [Dyadic.toRat_mk]
    rw [show ((-54 : ℤ)) = -(54 : ℕ) by norm_num, zpow_neg, zpow_natCast]
    rw [mul_inv_lt_iff₀ (by positivity)]
    norm_num

set_option maxHeartbeats 2000000 in
set_option maxRecDepth 8000 in
/-- C1 (amended): for every strategy whose tiers lie in the contract tables
and every PIR count, the derived parameters match the amended tables:
`maxDocsPerPir` is the intensity base `200/500/1000/2000` scaled by
`max(0.5, 1 − 0.1·(n−5))` and truncated when `n > 5`; the threshold is the
binary64 evaluation of selectivity base times urgency factor with the
`[0.10, 0.80]` clamp — the double nearest the table value in every cell
except very_selective/crisis, which is `0.48999999999999994`, not `0.49`;
`evalBatchSize` is `20/30/50/100` and `maxSignalsPerPir` is `15/25/50/100`;
`timeoutSeconds` is `180/300/450` by urgency, `×1.5` for comprehensive, and
for light the binary64 `×0.7` truncation gives `125/210/315` (crisis/light
is `125`, not `126`). -/
theorem C1_collection_params_amended (strategy : Strategy) (pirs : List PirRow)
    (hi : strategy.collection_intensity ∈ intensityTiers)
    (hs : strategy.relevance_threshold ∈ selectivityTiers)
    (hu : strategy.urgency_level ∈ urgencyTiers) :
    (ai_determine_collection_parameters strategy pirs).max_articles_per_pir
        = specMaxDocs strategy.collection_intensity pirs.length
    ∧ (ai_determine_collection_parameters strategy pirs).relevance_threshold
        = specThresholdAmended strategy.relevance_threshold strategy.urgency_level
    ∧ (ai_determine_collection_parameters strategy pirs).collection_timeout
        = specTimeoutAmended strategy.urgency_level strategy.collection_intensity
    ∧ (ai_determine_collection_parameters strategy pirs).ai_evaluation_batch_size
        = specEvalBatch strategy.collection_intensity
    ∧ (ai_determine_collection_parameters strategy pirs).max_signals_per_pir
        = specMaxSignals strategy.collection_intensity := by
  obtain ⟨u, ci, rt, cp⟩ := strategy
  simp only [intensityTiers, selectivityTiers, urgencyTiers, List.mem_cons,
    List.not_mem_nil, or_false] at hi hs hu
  rcases hi with rfl | rfl | rfl | rfl <;>
    rcases hs with rfl | rfl | rfl | rfl <;>
      rcases hu with rfl | rfl | rfl <;>
        exact ⟨by first
            | exact calculate_collection_volume_spec_light pirs.length
            | exact calculate_collection_volume_spec_standard pirs.length
            | exact calculate_collection_volume_spec_intensive pirs.length
            | exact calculate_collection_volume_spec_comprehensive pirs.length,
          by dsimp only [ai_determine_collection_parameters]; decide,
          by dsimp only [ai_determine_collection_parameters]; decide,
          by dsimp only [ai_determine_collection_parameters]; decide,
          by dsimp only [ai_determine_collection_parameters]; decide⟩

/-- Witness for `C1_collection_params_amended` at the spec's scenario 1:
a standard/balanced/strategic strategy with one PIR. -/
theorem C1_collection_params_amended_witness :
    "standard" ∈ intensityTiers ∧ "balanced" ∈ selectivityTiers
      ∧ "strategic" ∈ urgencyTiers
    ∧ ((ai_determine_collection_parameters ⟨"strategic", "standard", "balanced", ""⟩
          [⟨"pir-1", "Monitor pump efficiency ratings", none⟩]).max_articles_per_pir
        = specMaxDocs "standard" 1
      ∧ (ai_determine_collection_parameters ⟨"strategic", "standard", "balanced", ""⟩
          [⟨"pir-1", "Monitor pump efficiency ratings", none⟩]).relevance_threshold
        = specThresholdAmended "balanced" "strategic"
      ∧ (ai_determine_collection_parameters ⟨"strategic", "standard", "balanced", ""⟩
          [⟨"pir-1", "Monitor pump efficiency ratings", none⟩]).collection_timeout
        = specTimeoutAmended "strategic" "standard"
      ∧ (ai_determine_collection_parameters ⟨"strategic", "standard", "balanced", ""⟩
          [⟨"pir-1", "Monitor pump efficiency ratings", none⟩]).ai_evaluation_batch_size
        = specEvalBatch "standard"
      ∧ (ai_determine_collection_parameters ⟨"strategic", "standard", "balanced", ""⟩
          [⟨"pir-1", "Monitor pump efficiency ratings", none⟩]).max_signals_per_pir
        = specMaxSignals "standard") :=
  ⟨by decide, by decide, by decide,
    C1_collection_params_amended ⟨"strategic", "standard", "balanced", ""⟩
      [⟨"pir-1", "Monitor pump efficiency ratings", none⟩]
      (by decide) (by decide) (by decide)⟩

/-- C6, counterexample: a response carrying exactly the five checked fields —
so missing `source_priorities`, `confidence_score` and `reasoning` — is
accepted, while the claim says any of the eight missing fields fails the
campaign. -/
theorem C6_five_fields_suffice_counterexample :
    ai_generate_unified_strategy (some requiredStrategyFields)
        = Except.ok requiredStrategyFields
    ∧ "source_priorities" ∉ requiredStrategyFields
    ∧ "confidence_score" ∉ requiredStrategyFields
    ∧ "reasoning" ∉ requiredStrategyFields := by
  decide

/-- C6 (amended): the planner succeeds iff the LLM response is a JSON object
containing the five fields `strategic_approach`, `intelligence_domains`,
`urgency_level`, `collection_intensity`, `relevance_threshold`; a non-JSON
response or any of those five missing fails, and `source_priorities`,
`confidence_score`, `reasoning` are never checked. -/
theorem C6_required_fields_amended (response : Option (List String)) :
    (∃ keys, ai_generate_unified_strategy response = Except.ok keys)
      ↔ ∃ keys, response = some keys ∧ ∀ f ∈ requiredStrategyFields, f ∈ keys := by
  cases response with
  | none =>
    simp [ai_generate_unified_strategy]
  | some keys =>
    by_cases hguard : keys = [] ∨ ¬ "strategic_approach" ∈ keys
    · have hne : ¬ ∀ f ∈ requiredStrategyFields, f ∈ keys := by
        intro hall
        have hsa : "strategic_approach" ∈ keys := hall _ (by decide)
        rcases hguard with h | h
        · subst h
          exact absurd hsa (List.not_mem_nil _)
        · exact h hsa
      simp only [ai_generate_unified_strategy, if_pos hguard]
      constructor
      · rintro ⟨k, hk⟩
        cases hk
      · rintro ⟨k, hbeq, hall⟩
        obtain rfl : k = keys := (Option.some.inj hbeq).symm
        exact absurd hall hne
    · cases hfind : requiredStrategyFields.find? (fun f => ! keys.contains f) with
      | some f =>
        have hf1 : f ∈ requiredStrategyFields := List.mem_of_find?_eq_some hfind
        have hf2 : ¬ f ∈ keys := by
          have hp := List.find?_some hfind
          simpa using hp
        simp only [ai_generate_unified_strategy, if_neg hguard, hfind]
        constructor
        · rintro ⟨k, hk⟩
          cases hk
        · rintro ⟨k, hbeq, hall⟩
          obtain rfl : k = keys := (Option.some.inj hbeq).symm
          exact absurd (hall f hf1) hf2
      | none =>
        have hall : ∀ f ∈ requiredStrategyFields, f ∈ keys := by
          intro f hf
          have hp := List.find?_eq_none.mp hfind f hf
          simpa using hp
        simp only [ai_generate_unified_strategy, if_neg hguard, hfind]
        constructor
        · intro _
          exact ⟨keys, rfl, hall⟩
        · intro _
          exact ⟨keys, rfl⟩

/-- C8, counterexample: a 200 response whose body holds the MIME token
`application/rss+xml` but no tag marker.  The claim's iff makes the prober
classify it valid, but `_test_single_endpoint` checks only the five tag
markers and classifies it invalid (`_validate_single_rss_url` does accept
it). -/
theorem C8_mime_token_counterexample :
    test_single_endpoint_valid 200 "application/rss+xml".data = false
    ∧ validate_single_rss_url_valid 200 "application/rss+xml".data = true
    ∧ (∃ ind ∈ rssIndicatorsDirect,
        ind.data <:+: lowerChars ("application/rss+xml".data.take 1024)) := by
  refine ⟨by decide, by decide, ?_⟩
  refine ⟨"application/rss+xml", by decide, ?_⟩
  rw [← listContainsSub_iff]
  decide

/-- C8 (amended): direct-URL validation classifies valid iff the status is
200 and the lower-cased first 2048 bytes contain one of the seven markers
(five tags plus the two MIME tokens); endpoint probing classifies valid iff
the status is 200 and the lower-cased first 1024 bytes contain one of the
five tag markers only.  In particular any body starting (case-insensitive)
with `<rss`, `<feed` or `<channel>` is valid for both, and `<html>` or an
empty body is invalid for both. -/
theorem C8_validator_amended :
    (∀ (status : ℕ) (body : List Char),
      validate_single_rss_url_valid status body = true
        ↔ status = 200 ∧ ∃ ind ∈ rssIndicatorsDirect,
            ind.data <:+: lowerChars (body.take 2048))
    ∧ (∀ (status : ℕ) (body : List Char),
      test_single_endpoint_valid status body = true
        ↔ status = 200 ∧ ∃ ind ∈ rssIndicatorsEndpoint,
            ind.data <:+: lowerChars (body.take 1024))
    ∧ (∀ body : List Char,
      ("<rss".data <+: lowerChars body ∨ "<feed".data <+: lowerChars body
          ∨ "<channel>".data <+: lowerChars body) →
        test_single_endpoint_valid 200 body = true
          ∧ validate_single_rss_url_valid 200 body = true)
    ∧ test_single_endpoint_valid 200 "<html>".data = false
    ∧ validate_single_rss_url_valid 200 "<html>".data = false
    ∧ test_single_endpoint_valid 200 [] = false
    ∧ validate_single_rss_url_valid 200 [] = false := by
  have hiff : ∀ (markers : List String) (k status : ℕ) (body : List Char),
      (status == 200 &&
          markers.any (fun ind => listContainsSub ind.data (lowerChars (body.take k)))) = true
        ↔ status = 200 ∧ ∃ ind ∈ markers, ind.data <:+: lowerChars (body.take k) := by
    intro markers k status body
    rw [Bool.and_eq_true, beq_iff_eq, List.any_eq_true]
    constructor
    · rintro ⟨h1, ind, hmem, hsub⟩
      exact ⟨h1, ind, hmem, (listContainsSub_iff _ _).mp hsub⟩
    · rintro ⟨h1, ind, hmem, hsub⟩
      exact ⟨h1, ind, hmem, (listContainsSub_iff _ _).mpr hsub⟩
  have hpre : ∀ (p body : List Char) (k : ℕ), p.length ≤ k → p <+: lowerChars body →
      p <:+: lowerChars (body.take k) := by
    intro p body k hk hp
    have hmap : lowerChars (List.take k body) = (lowerChars body).take k := by
      rw [lowerChars, lowerChars, List.map_take]
    rw [hmap]
    refine List.IsPrefix.isInfix ?_
    rw [List.prefix_iff_eq_take] at hp ⊢
    rw [List.take_take, min_eq_left hk]
    exact hp
  refine ⟨fun status body => hiff rssIndicatorsDirect 2048 status body,
    fun status body => hiff rssIndicatorsEndpoint 1024 status body,
    ?_, by decide, by decide, by decide, by decide⟩
  intro body hstart
  rcases hstart with h | h | h
  · exact ⟨(hiff rssIndicatorsEndpoint 1024 200 body).mpr
        ⟨rfl, "<rss", by decide, hpre _ body 1024 (by decide) h⟩,
      (hiff rssIndicatorsDirect 2048 200 body).mpr
        ⟨rfl, "<rss", by decide, hpre _ body 2048 (by decide) h⟩⟩
  · exact ⟨(hiff rssIndicatorsEndpoint 1024 200 body).mpr
        ⟨rfl, "<feed", by decide, hpre _ body 1024 (by decide) h⟩,
      (hiff rssIndicatorsDirect 2048 200 body).mpr
        ⟨rfl, "<feed", by decide, hpre _ body 2048 (by decide) h⟩⟩
  · exact ⟨(hiff rssIndicatorsEndpoint 1024 200 body).mpr
        ⟨rfl, "<channel>", by decide, hpre _ body 1024 (by decide) h⟩,
      (hiff rssIndicatorsDirect 2048 200 body).mpr
        ⟨rfl, "<channel>", by decide, hpre _ body 2048 (by decide) h⟩⟩

/-- Witness for `C8_validator_amended`: a concrete mixed-case RSS prefix is
classified valid by both probes. -/
theorem C8_validator_amended_witness :
    ("<rss".data <+: lowerChars "<RSS version=2.0><channel>".data
        ∨ "<feed".data <+: lowerChars "<RSS version=2.0><channel>".data
        ∨ "<channel>".data <+: lowerChars "<RSS version=2.0><channel>".data)
    ∧ (test_single_endpoint_valid 200 "<RSS version=2.0><channel>".data = true
        ∧ validate_single_rss_url_valid 200 "<RSS version=2.0><channel>".data = true) := by
  have hstart : "<rss".data <+: lowerChars "<RSS version=2.0><channel>".data := by
    rw [List.prefix_iff_eq_take]
    decide
  exact ⟨Or.inl hstart,
    C8_validator_amended.2.2.1 "<RSS version=2.0><channel>".data (Or.inl hstart)⟩

/-- C4 (confirmed): for every evaluation result with score `s` and
recommendation `d`, a Signal is emitted iff `d = include`, or `s` exceeds
the threshold and `d ≠ exclude`; with no parseable result nothing is
emitted. -/
theorem C4_inclusion_rule (a : AiResult) (threshold : ℚ) :
    (should_create_signal (some a) threshold = true
      ↔ (a.recommendation.getD "uncertain" = "include"
          ∨ (a.relevance_score.getD 0 > threshold
              ∧ a.recommendation.getD "uncertain" ≠ "exclude")))
    ∧ should_create_signal none threshold = false := by
  constructor
  · simp [should_create_signal, Bool.or_eq_true, Bool.and_eq_true,
      decide_eq_true_eq, beq_iff_eq, bne_iff_ne, and_comm]
  · rfl

/-- C10 (confirmed): the feed/RSS collection step of the per-PIR collector
always returns the empty list, every document handed to the evaluator comes
from the NewsAPI search backend, and the per-PIR breakdown records 0 RSS
documents whenever RSS sources were discovered at all. -/
theorem C10_rss_stub :
    (∀ (rss_sources : List ValidatedSource) (max_articles days_back : ℕ),
      collect_from_rss_sources rss_sources max_articles days_back = [])
    ∧ (∀ (pir : PirRow) (rss_sources : List ValidatedSource)
        (api_articles : List ArticleRec) (max_articles days_back : ℕ),
      (collect_for_strategic_pir pir rss_sources api_articles
          max_articles days_back).articles_for_evaluation = api_articles
      ∧ (collect_for_strategic_pir pir rss_sources api_articles
          max_articles days_back).breakdown_rss
          = (if rss_sources.isEmpty then none else some 0)) := by
  refine ⟨fun _ _ _ => rfl, fun pir rss_sources api_articles ma d => ⟨?_, ?_⟩⟩
  · simp [collect_for_strategic_pir, collect_from_rss_sources]
  · simp [collect_for_strategic_pir, collect_from_rss_sources]

theorem create_or_get_signal_source_some (source_name source_url source_type now : String)
    (db : Database) :
    ∃ sid db1, create_or_get_signal_source source_name source_url source_type now db
        = (some sid, db1) ∧ db1.signals = db.signals := by
  rw [create_or_get_signal_source]
  cases hfind : db.sources.find? (fun r => r.source_name == source_name) with
  | some row => exact ⟨row.id, _, rfl, rfl⟩
  | none => exact ⟨db.next_source_id, _, rfl, rfl⟩

theorem save_ai_signal_inserts (article : ArticleRec) (pir : PirRow)
    (ai_result : AiResult) (now : String) (db : Database) :
    ∃ row : SignalRow,
      (save_ai_signal article pir ai_result now db).2.signals = db.signals ++ [row]
      ∧ (save_ai_signal article pir ai_result now db).1 = true
      ∧ row.indicator_id = pir.id
      ∧ row.article_url = some article.url
      ∧ row.article_title = some article.title
      ∧ row.article_content = some article.description
      ∧ row.ai_reasoning = some (ai_result.reasoning.getD "")
      ∧ row.raw_signal_text
          = pyTake (aiMetadataDumps (ai_result.reasoning.getD "")
              (ai_result.strategic_connections.getD [])
              (ai_result.decision_support_value.getD "medium")
              (ai_result.intelligence_type.getD "general")
              (ai_result.urgency_match.getD "strategic") now) 500 := by
  obtain ⟨sid, db1, heq, hsig⟩ :=
    create_or_get_signal_source_some article.source article.url "API" now db
  refine ⟨{ id := db1.next_signal_id
            indicator_id := pir.id
            source_id := sid
            raw_signal_text := pyTake (aiMetadataDumps (ai_result.reasoning.getD "")
              (ai_result.strategic_connections.getD [])
              (ai_result.decision_support_value.getD "medium")
              (ai_result.intelligence_type.getD "general")
              (ai_result.urgency_match.getD "strategic") now) 500
            match_score := ai_result.relevance_score.getD 0
            observed_at := now
            session_id := pir.session_id
            status := "ai_evaluated"
            article_url := some article.url
            article_title := some article.title
            article_content := some article.description
            published_date := article.published_date
            ai_reasoning := some (ai_result.reasoning.getD "") }, ?_, ?_,
    rfl, rfl, rfl, rfl, rfl, rfl⟩ <;>
      rw [save_ai_signal, heq] <;>
      simp [create_signal, hsig]

/-- C2, counterexample: for a concrete saved Signal, `rawSignalText` is the
serialization of the metadata blob with the reasoning still inside — it
contains the `ai_reasoning` key and the full reasoning text, duplicating
the separate `aiReasoning` column — while the claim says the reasoning
field is removed from it. -/
theorem C2_raw_text_duplicates_reasoning_counterexample :
    ((save_ai_signal sampleArticle samplePir sampleAiResult
          "2024-01-01T00:00:00" emptyDb).2.signals.getLastD dummySignalRow).ai_reasoning
        = some "Directly relevant to the monitored PIR"
    ∧ listContainsSub "\"ai_reasoning\"".data
        ((save_ai_signal sampleArticle samplePir sampleAiResult
          "2024-01-01T00:00:00" emptyDb).2.signals.getLastD
            dummySignalRow).raw_signal_text.data = true
    ∧ listContainsSub "Directly relevant to the monitored PIR".data
        ((save_ai_signal sampleArticle samplePir sampleAiResult
          "2024-01-01T00:00:00" emptyDb).2.signals.getLastD
            dummySignalRow).raw_signal_text.data = true := by
  refine ⟨?_, ?_, ?_⟩ <;> decide

/-- C2 (amended): every Signal persisted by the evaluator stores the
document title, the document body and the AI reasoning in their own fields
(`article_title`, `article_content`, `ai_reasoning`), and
`raw_signal_text` is the `json.dumps` serialization of the AI metadata
blob — which still contains the reasoning under its `ai_reasoning` key,
duplicating it — truncated to 500 characters at the write boundary. -/
theorem C2_signal_fields_amended (article : ArticleRec) (pir : PirRow)
    (ai_result : AiResult) (now : String) (db : Database) :
    ∃ row : SignalRow,
      (save_ai_signal article pir ai_result now db).2.signals = db.signals ++ [row]
      ∧ row.article_title = some article.title
      ∧ row.article_content = some article.description
      ∧ row.ai_reasoning = some (ai_result.reasoning.getD "")
      ∧ row.raw_signal_text
          = pyTake (aiMetadataDumps (ai_result.reasoning.getD "")
              (ai_result.strategic_connections.getD [])
              (ai_result.decision_support_value.getD "medium")
              (ai_result.intelligence_type.getD "general")
              (ai_result.urgency_match.getD "strategic") now) 500 := by
  obtain ⟨row, h1, _, _, _, h5, h6, h7, h8⟩ :=
    save_ai_signal_inserts article pir ai_result now db
  exact ⟨row, h1, h5, h6, h7, h8⟩

/-- C9 (confirmed): `create_signal` stores exactly the first 500 characters
of the supplied `raw_signal_text` (so anything longer is silently cut, and
the stored blob has at most 500 characters), and all three write paths —
the AI evaluator, the RSS monitor and the SEC signal writer — pass their
serialized metadata through this boundary. -/
theorem C9_raw_signal_truncated_500 :
    (∀ (s : String), (pyTake s 500).data.length = min 500 s.data.length)
    ∧ (∀ (sd : SignalData) (now : String) (db : Database) (ind : String) (src : ℕ),
      sd.indicator_id = some ind → sd.source_id = some src →
      ∃ row : SignalRow, (create_signal sd now db).2.signals = db.signals ++ [row]
        ∧ row.raw_signal_text = pyTake (sd.raw_signal_text.getD "") 500)
    ∧ (∀ (article : ArticleRec) (pir : PirRow) (a : AiResult) (now : String)
        (db : Database),
      ∃ row : SignalRow,
        (save_ai_signal article pir a now db).2.signals = db.signals ++ [row]
        ∧ row.raw_signal_text
            = pyTake (aiMetadataDumps (a.reasoning.getD "")
                (a.strategic_connections.getD []) (a.decision_support_value.getD "medium")
                (a.intelligence_type.getD "general") (a.urgency_match.getD "strategic")
                now) 500)
    ∧ (∀ (entry : RssEntry) (pir : PirRow) (a : AiResult)
        (feed_url netloc now : String) (db : Database),
      ∃ row : SignalRow,
        (save_rss_signal entry pir a feed_url netloc now db).2.signals
            = db.signals ++ [row]
        ∧ row.raw_signal_text
            = pyTake (rssMetadataDumps (a.reasoning.getD "")
                (a.strategic_connections.getD []) (a.decision_support_value.getD "medium")
                (a.intelligence_type.getD "general") feed_url now) 500)
    ∧ (∀ (filing : FilingRec) (pir : PirRow) (a : AiResult)
        (ai_result_json now : String) (db : Database),
      ∃ row : SignalRow,
        (create_sec_signal filing pir a ai_result_json now db).2.signals
            = db.signals ++ [row]
        ∧ row.raw_signal_text
            = pyTake (secMetadataDumps filing.form_type filing.company_name
                filing.cik ai_result_json) 500) := by
  refine ⟨?_, ?_, ?_, ?_, ?_⟩
  · intro s
    rw [pyTake]
    simp [List.length_take, Nat.min_comm]
  · intro sd now db ind src h1 h2
    simp only [create_signal, h1, h2]
    exact ⟨_, rfl, rfl⟩
  · intro article pir a now db
    obtain ⟨row, hsig, _, _, _, _, _, _, hraw⟩ := save_ai_signal_inserts article pir a now db
    exact ⟨row, hsig, hraw⟩
  · intro entry pir a feed_url netloc now db
    obtain ⟨sid, db1, heq, hsigs⟩ := create_or_get_signal_source_some
      (entry.feed_title.getD ("RSS Feed - " ++ netloc)) feed_url "RSS" now db
    simp only [save_rss_signal, heq]
    simp only [create_signal, hsigs]
    exact ⟨_, rfl, rfl⟩
  · intro filing pir a ai_result_json now db
    have hsec : ∃ sid db1, create_sec_source filing.company_name filing.cik now db
        = (some sid, db1) ∧ db1.signals = db.signals := by
      rw [create_sec_source]
      cases hfind : db.sources.find?
          (fun r => r.source_name == filing.company_name ++ " SEC Filings") with
      | some row => exact ⟨row.id, _, rfl, rfl⟩
      | none => exact ⟨db.next_source_id, _, rfl, rfl⟩
    obtain ⟨sid, db1, heq, hsigs⟩ := hsec
    simp only [create_sec_signal, heq]
    simp only [create_signal, hsigs]
    exact ⟨_, rfl, rfl⟩

/-- Witness for `C9_raw_signal_truncated_500`: the generic `create_signal`
clause at a concrete `signal_data`. -/
theorem C9_raw_signal_truncated_500_witness :
    sampleSignalData.indicator_id = some "pir-1"
    ∧ sampleSignalData.source_id = some 0
    ∧ ∃ row : SignalRow,
      (create_signal sampleSignalData "t0" emptyDb).2.signals
          = emptyDb.signals ++ [row]
      ∧ row.raw_signal_text = pyTake (sampleSignalData.raw_signal_text.getD "") 500 :=
  ⟨rfl, rfl,
    C9_raw_signal_truncated_500.2.1 sampleSignalData "t0" emptyDb "pir-1" 0 rfl rfl⟩

theorem process_batch_results_le (pir : PirRow) (threshold : ℚ) (budget : ℤ)
    (now : String) :
    ∀ (pairs : List (ArticleRec × EvalOutcome)) (count : ℕ) (db : Database),
      (count : ℤ) ≤ budget →
      ((process_batch_results pir threshold budget now pairs count db).1 : ℤ) ≤ budget := by
  intro pairs
  induction pairs with
  | nil =>
    intro count db h
    exact h
  | cons p rest ih =>
    intro count db h
    obtain ⟨article, outcome⟩ := p
    rw [process_batch_results.eq_def]
    dsimp only
    split_ifs with hle
    · exact h
    · push_neg at hle
      cases outcome with
      | raised =>
        exact ih count db h
      | evalDict r =>
        cases r with
        | none =>
          exact ih count db h
        | some a =>
          dsimp only
          split_ifs with hcreate
          · rcases hsave : save_ai_signal article pir a now db with ⟨flag, db2⟩
            cases flag
            · exact ih count db2 h
            · refine ih (count + 1) db2 ?_
              push_cast
              omega
          · exact ih count db h

theorem evaluate_article_batch_le (pir : PirRow) (threshold : ℚ) (budget : ℤ)
    (now : String) (pairs : List (ArticleRec × EvalOutcome)) (db : Database) :
    ((evaluate_article_batch pir threshold budget now pairs db).1 : ℤ)
      ≤ max 0 budget := by
  rw [evaluate_article_batch]
  split_ifs with hle
  · simp
  · push_neg at hle
    refine le_trans (process_batch_results_le pir threshold budget now pairs 0 db ?_) ?_
    · simpa using hle.le
    · exact le_max_right 0 budget

theorem run_batches_le (pir : PirRow) (threshold : ℚ) (max_signals : ℤ)
    (now : String) :
    ∀ (batches : List (List (ArticleRec × EvalOutcome))) (s : ℕ) (db : Database),
      (s : ℤ) ≤ max_signals →
      ((run_batches pir threshold max_signals now batches s db).1 : ℤ) ≤ max_signals := by
  intro batches
  induction batches with
  | nil =>
    intro s db h
    exact h
  | cons b bs ih =>
    intro s db h
    rw [run_batches]
    split_ifs with hle
    · exact h
    · push_neg at hle
      rcases hbatch : evaluate_article_batch pir threshold (max_signals - s) now b db
        with ⟨batch_signals, db1⟩
      dsimp only
      refine ih (s + batch_signals) db1 ?_
      have h2 := evaluate_article_batch_le pir threshold (max_signals - s) now b db
      rw [hbatch] at h2
      rw [max_eq_right (by omega : (0:ℤ) ≤ max_signals - s)] at h2
      push_cast at h2 ⊢
      omega

/-- C5 (confirmed): for every per-PIR evaluation run with
`maxSignalsPerPir = m ≥ 0`, the number of signals created across all
sequential batches is at most `m`: each batch receives only the remaining
budget, and the loop stops once the budget is spent. -/
theorem C5_max_signals_cap (pairs : List (ArticleRec × EvalOutcome)) (pir : PirRow)
    (threshold : ℚ) (max_signals : ℤ) (batch_size : ℕ) (now : String) (db : Database)
    (hm : 0 ≤ max_signals) :
    ((evaluate_articles_for_pir pairs pir threshold max_signals batch_size now db).1 : ℤ)
      ≤ max_signals := by
  rw [evaluate_articles_for_pir]
  split_ifs with hemp
  · simpa using hm
  · exact run_batches_le pir threshold max_signals now
      (chunkList batch_size pairs) 0 db (by simpa using hm)

/-- Witness for `C5_max_signals_cap`: two includable duplicates against a
budget of one signal. -/
theorem C5_max_signals_cap_witness :
    (0 : ℤ) ≤ 1
    ∧ ((evaluate_articles_for_pir
        [(sampleArticle, EvalOutcome.evalDict (some sampleAiResult)),
          (sampleArticle, EvalOutcome.evalDict (some sampleAiResult))]
        samplePir 0 1 30 "t0" emptyDb).1 : ℤ) ≤ 1 :=
  ⟨by decide,
    C5_max_signals_cap
      [(sampleArticle, EvalOutcome.evalDict (some sampleAiResult)),
        (sampleArticle, EvalOutcome.evalDict (some sampleAiResult))]
      samplePir 0 1 30 "t0" emptyDb (by decide)⟩

theorem count_pir_url_append (l1 l2 : List SignalRow) (p u : String) :
    count_pir_url_signals (l1 ++ l2) p u
      = count_pir_url_signals l1 p u + count_pir_url_signals l2 p u := by
  rw [count_pir_url_signals, count_pir_url_signals, count_pir_url_signals,
    List.filter_append, List.length_append]

theorem process_batch_results_url_count (pir : PirRow) (threshold : ℚ)
    (budget : ℤ) (now : String) (u : String) :
    ∀ (pairs : List (ArticleRec × EvalOutcome)) (count : ℕ) (db : Database),
      count_pir_url_signals
          (process_batch_results pir threshold budget now pairs count db).2.signals
          pir.id u
        ≤ count_pir_url_signals db.signals pir.id u
          + List.count u (pairs.map (fun q => q.1.url)) := by
  intro pairs
  induction pairs with
  | nil =>
    intro count db
    simp [process_batch_results]
  | cons p rest ih =>
    intro count db
    obtain ⟨article, outcome⟩ := p
    have hmono : List.count u (List.map (fun q => q.1.url) rest)
        ≤ List.count u (List.map (fun q => q.1.url)
            ((article, outcome) :: rest)) := by
      rw [List.map_cons]
      exact (List.sublist_cons_self _ _).count_le _
    have hw : (if u = article.url then 1 else 0)
          + List.count u (List.map (fun q => q.1.url) rest)
        ≤ List.count u (List.map (fun q => q.1.url) ((article, outcome) :: rest)) := by
      by_cases hu : u = article.url
      · simp only [List.map_cons, List.count_cons, hu, if_pos]
        simp only [beq_self_eq_true, if_pos]
        omega
      · simp only [List.map_cons, List.count_cons]
        have : ¬ (article.url == u) = true := by
          simp
          exact fun he => hu he.symm
        simp [hu, this]
    rw [process_batch_results.eq_def]
    dsimp only
    by_cases hle : budget ≤ (count : ℤ)
    · rw [if_pos hle]
      dsimp only
      omega
    · rw [if_neg hle]
      cases outcome with
      | raised =>
        exact le_trans (ih count db) (by omega)
      | evalDict r =>
        cases r with
        | none =>
          exact le_trans (ih count db) (by omega)
        | some a =>
          dsimp only
          by_cases hcreate : should_create_signal (some a) threshold = true
          · rw [if_pos hcreate]
            obtain ⟨row, hsig, hflag, hind, hurl, _, _, _, _⟩ :=
              save_ai_signal_inserts article pir a now db
            rcases hsave : save_ai_signal article pir a now db with ⟨flag, db2⟩
            rw [hsave] at hsig hflag
            cases flag
            · cases hflag
            · have hrow : count_pir_url_signals db2.signals pir.id u
                  ≤ count_pir_url_signals db.signals pir.id u
                    + (if u = article.url then 1 else 0) := by
                rw [show db2.signals = db.signals ++ [row] from hsig,
                  count_pir_url_append]
                have hone : count_pir_url_signals [row] pir.id u
                    ≤ (if u = article.url then 1 else 0) := by
                  rw [count_pir_url_signals]
                  by_cases hu : u = article.url
                  · rw [if_pos hu]
                    cases hfilter : List.filter
                        (fun r => r.indicator_id == pir.id && r.article_url == some u)
                        [row] with
                    | nil => simp
                    | cons x xs =>
                      have := List.length_filter_le
                        (fun r => r.indicator_id == pir.id && r.article_url == some u)
                        [row]
                      rw [hfilter] at this
                      simpa using this
                  · rw [if_neg hu]
                    have hfalse : (row.article_url == some u) = false := by
                      rw [hurl]
                      simp
                      exact fun he => hu he.symm
                    simp [List.filter, hfalse]
                omega
              exact le_trans (ih (count + 1) db2) (by omega)
          · rw [if_neg hcreate]
            exact le_trans (ih count db) (by omega)

theorem evaluate_article_batch_url_count (pir : PirRow) (threshold : ℚ)
    (budget : ℤ) (now : String) (u : String)
    (pairs : List (ArticleRec × EvalOutcome)) (db : Database) :
    count_pir_url_signals
        (evaluate_article_batch pir threshold budget now pairs db).2.signals pir.id u
      ≤ count_pir_url_signals db.signals pir.id u
        + List.count u (pairs.map (fun q => q.1.url)) := by
  rw [evaluate_article_batch]
  split_ifs with hle
  · dsimp only
    omega
  · exact process_batch_results_url_count pir threshold budget now u pairs 0 db

theorem run_batches_url_count (pir : PirRow) (threshold : ℚ) (max_signals : ℤ)
    (now : String) (u : String) :
    ∀ (batches : List (List (ArticleRec × EvalOutcome))) (s : ℕ) (db : Database),
      count_pir_url_signals
          (run_batches pir threshold max_signals now batches s db).2.signals pir.id u
        ≤ count_pir_url_signals db.signals pir.id u
          + List.count u (batches.flatten.map (fun q => q.1.url)) := by
  intro batches
  induction batches with
  | nil =>
    intro s db
    simp [run_batches]
  | cons b bs ih =>
    intro s db
    rw [run_batches]
    have hflat : List.count u ((b :: bs).flatten.map (fun q => q.1.url))
        = List.count u (b.map (fun q => q.1.url))
          + List.count u (bs.flatten.map (fun q => q.1.url)) := by
      rw [List.flatten_cons, List.map_append, List.count_append]
    split_ifs with hle
    · dsimp only
      omega
    · rcases hbatch : evaluate_article_batch pir threshold (max_signals - s) now b db
        with ⟨batch_signals, db1⟩
      dsimp only
      have hb := evaluate_article_batch_url_count pir threshold (max_signals - s)
        now u b db
      rw [hbatch] at hb
      dsimp only at hb
      exact le_trans (ih (s + batch_signals) db1) (by omega)

theorem chunkFuel_flatten {α : Type} :
    ∀ (fuel k : ℕ) (l : List α), l.length ≤ fuel → 0 < k →
      (chunkFuel fuel k l).flatten = l := by
  intro fuel
  induction fuel with
  | zero =>
    intro k l hl _
    have : l = [] := List.eq_nil_of_length_eq_zero (by omega)
    subst this
    rfl
  | succ fuel ih =>
    intro k l hl hk
    cases l with
    | nil => rfl
    | cons x xs =>
      simp only [List.length_cons] at hl
      rw [chunkFuel, List.flatten_cons]
      rw [ih k ((x :: xs).drop k)
        (by simp only [List.length_drop, List.length_cons]; omega) hk]
      exact List.take_append_drop k (x :: xs)

theorem chunkList_flatten_count {α : Type} [DecidableEq α] (k : ℕ)
    (pairs : List (ArticleRec × EvalOutcome)) (f : ArticleRec × EvalOutcome → α)
    (u : α) :
    List.count u ((chunkList k pairs).flatten.map f) ≤ List.count u (pairs.map f) := by
  rw [chunkList]
  split_ifs with hk
  · simp
  · rw [chunkFuel_flatten pairs.length k pairs le_rfl (Nat.pos_of_ne_zero hk)]

theorem dedupAux_not_mem_seen :
    ∀ (l : List ArticleRec) (seen : List String) (u : String), u ∈ seen →
      u ∉ (dedupAux l seen).map (fun a => a.url) := by
  intro l
  induction l with
  | nil =>
    intro seen u _
    simp [dedupAux]
  | cons a rest ih =>
    intro seen u hu
    rw [dedupAux]
    split_ifs with hcond
    · rw [List.map_cons, List.mem_cons]
      push_neg
      constructor
      · intro he
        exact hcond.2 (he ▸ hu)
      · exact ih (seen ++ [a.url]) u (by simp [hu])
    · exact ih seen u hu

theorem dedupAux_urls_nodup :
    ∀ (l : List ArticleRec) (seen : List String),
      ((dedupAux l seen).map (fun a => a.url)).Nodup := by
  intro l
  induction l with
  | nil =>
    intro seen
    simp [dedupAux]
  | cons a rest ih =>
    intro seen
    rw [dedupAux]
    split_ifs with hcond
    · rw [List.map_cons, List.nodup_cons]
      exact ⟨dedupAux_not_mem_seen rest (seen ++ [a.url]) a.url (by simp), ih _⟩
    · exact ih seen

theorem zip_fst_prefix {α β : Type} :
    ∀ (l : List α) (o : List β), ((l.zip o).map Prod.fst) <+: l := by
  intro l
  induction l with
  | nil =>
    intro o
    simp
  | cons x xs ih =>
    intro o
    cases o with
    | nil => simp
    | cons y ys =>
      rw [List.zip_cons_cons, List.map_cons]
      obtain ⟨t, ht⟩ := ih ys
      exact ⟨t, by rw [List.cons_append, ht]⟩

/-- C3, counterexample: the claimed per-`(pir_id, url)` deduplication set in
the signal writer does not exist.  Evaluating the same article twice for the
same PIR in one call to `evaluate_articles_for_pir` writes two signal rows
with the same `(indicator_id, article_url)` pair; nothing in
`_save_ai_signal` or the batch loop consults previously written signals. -/
theorem C3_duplicate_url_counterexample :
    count_pir_url_signals
        ((evaluate_articles_for_pir
            [(sampleArticle, EvalOutcome.evalDict (some sampleAiResult)),
             (sampleArticle, EvalOutcome.evalDict (some sampleAiResult))]
            samplePir 0 25 30 "2024-01-01T00:00:00" emptyDb).2.signals)
        samplePir.id sampleArticle.url = 2 := by
  decide

/-- C3, amended: the only URL-level deduplication on the pipeline is the
collector-side `_deduplicate_articles`, which keeps the first article per
URL.  When the evaluated article list is the deduplicated one (as in
`_collect_for_strategic_pir`), each `(pir.id, url)` pair gains at most one
signal row per `evaluate_articles_for_pir` call, on top of whatever the
database already held. -/
theorem C3_no_writer_dedupe_amended (articles : List ArticleRec)
    (outcomes : List EvalOutcome) (pir : PirRow) (threshold : ℚ)
    (max_signals : ℤ) (batch_size : ℕ) (now : String) (u : String)
    (db : Database) :
    count_pir_url_signals
        ((evaluate_articles_for_pir
            ((deduplicate_articles articles).zip outcomes)
            pir threshold max_signals batch_size now db).2.signals) pir.id u
      ≤ count_pir_url_signals db.signals pir.id u + 1 := by
  rw [evaluate_articles_for_pir]
  split_ifs with hemp
  · dsimp only
    omega
  · have h1 := run_batches_url_count pir threshold max_signals now u
      (chunkList batch_size ((deduplicate_articles articles).zip outcomes)) 0 db
    have h2 := chunkList_flatten_count batch_size
      ((deduplicate_articles articles).zip outcomes) (fun q => q.1.url) u
    have h3 : List.count u
        (((deduplicate_articles articles).zip outcomes).map (fun q => q.1.url))
        ≤ 1 := by
      have hmap : ((deduplicate_articles articles).zip outcomes).map
            (fun q => q.1.url)
          = (((deduplicate_articles articles).zip outcomes).map Prod.fst).map
            (fun a => a.url) := by
        rw [List.map_map]
        rfl
      have hpre := zip_fst_prefix (deduplicate_articles articles) outcomes
      have hsub : List.Sublist
          ((((deduplicate_articles articles).zip outcomes).map
              Prod.fst).map (fun a => a.url))
          ((deduplicate_articles articles).map (fun a => a.url)) :=
        hpre.sublist.map (fun a => a.url)
      have hnodup : ((deduplicate_articles articles).map
          (fun a => a.url)).Nodup := by
        rw [deduplicate_articles]
        exact dedupAux_urls_nodup articles []
      have hle1 := List.nodup_iff_count_le_one.mp hnodup u
      rw [hmap]
      exact le_trans (hsub.count_le u) hle1
    omega

/-- C7, counterexample: with one existing row named `Reuters` at URL
`https://u1`, invoking `create_or_get_signal_source("Reuters",
"https://u2")` — a `(name, url)` pair with no pre-existing row — creates no
row at all: it returns the id of the `https://u1` row, found by name alone,
so identity is not the `(name, url)` tuple. -/
theorem C7_name_only_identity_counterexample :
    (create_or_get_signal_source "Reuters" "https://u2" "RSS" "t1"
        ⟨[⟨0, "Reuters", "RSS", "https://u1", "t0"⟩], [], 1, 0⟩).1 = some 0
    ∧ (create_or_get_signal_source "Reuters" "https://u2" "RSS" "t1"
        ⟨[⟨0, "Reuters", "RSS", "https://u1", "t0"⟩], [], 1, 0⟩).2.sources.length = 1
    ∧ (create_or_get_signal_source "Reuters" "https://u2" "RSS" "t1"
        ⟨[⟨0, "Reuters", "RSS", "https://u1", "t0"⟩], [], 1, 0⟩).2.sources.filter
          (fun r => r.source_name == "Reuters" && r.source_url == "https://u2") = [] := by
  refine ⟨?_, ?_, ?_⟩ <;> decide

/-- C7 (amended): source identity is `source_name` alone.  Against a store
holding no row of that name (and with well-formed fresh ids), `N + 1`
invocations of `create_or_get_signal_source(name, url)` leave exactly one
new row — inserted by the first call with a fresh id, its `last_checked`
refreshed and nothing else changed by every repeat — and a further call
returns that row's id without inserting. -/
theorem C7_create_or_get_idempotent_amended
    (source_name source_url source_type now : String) (db : Database) (k : ℕ)
    (hnone : ∀ r ∈ db.sources, r.source_name ≠ source_name)
    (hwf : ∀ r ∈ db.sources, r.id < db.next_source_id) :
    (iterate_create_or_get source_name source_url source_type now (k + 1) db).sources
        = db.sources
          ++ [⟨db.next_source_id, source_name, source_type, source_url, now⟩]
    ∧ (create_or_get_signal_source source_name source_url source_type now
        (iterate_create_or_get source_name source_url source_type now (k + 1) db)).1
        = some db.next_source_id := by
  have hfind0 : db.sources.find? (fun r => r.source_name == source_name) = none := by
    rw [List.find?_eq_none]
    intro r hr
    simp [hnone r hr]
  -- the state reached after the first call
  have hstep1 : (create_or_get_signal_source source_name source_url source_type now db).2
      = { db with
            sources := db.sources
              ++ [⟨db.next_source_id, source_name, source_type, source_url, now⟩],
            next_source_id := db.next_source_id + 1 } := by
    rw [create_or_get_signal_source, hfind0]
  -- every later call leaves this state unchanged and returns the new id
  have hfix : ∀ st : Database,
      st.sources = db.sources
          ++ [⟨db.next_source_id, source_name, source_type, source_url, now⟩] →
      (create_or_get_signal_source source_name source_url source_type now st).1
          = some db.next_source_id
      ∧ (create_or_get_signal_source source_name source_url source_type now st).2.sources
          = st.sources := by
    intro st hst
    have hfind : st.sources.find? (fun r => r.source_name == source_name)
        = some ⟨db.next_source_id, source_name, source_type, source_url, now⟩ := by
      rw [hst, List.find?_append, List.find?_eq_none.mpr]
      · simp
      · intro r hr
        simp [hnone r hr]
    constructor
    · rw [create_or_get_signal_source, hfind]
    · rw [create_or_get_signal_source, hfind]
      show st.sources.map _ = st.sources
      rw [hst]
      rw [List.map_append]
      congr 1
      · have hid : db.sources.map
            (fun r => if (r.id == db.next_source_id) = true
              then { r with last_checked := now } else r) = db.sources.map id := by
          apply List.map_congr_left
          intro r hr
          have hne : r.id ≠ db.next_source_id := Nat.ne_of_lt (hwf r hr)
          simp [hne]
        simpa using hid
      · simp
  have hkeep : ∀ (m : ℕ) (st : Database),
      st.sources = db.sources
          ++ [⟨db.next_source_id, source_name, source_type, source_url, now⟩] →
      (iterate_create_or_get source_name source_url source_type now m st).sources
        = db.sources
          ++ [⟨db.next_source_id, source_name, source_type, source_url, now⟩] := by
    intro m
    induction m with
    | zero =>
      intro st hst
      exact hst
    | succ m ih =>
      intro st hst
      show (iterate_create_or_get source_name source_url source_type now m
        (create_or_get_signal_source source_name source_url source_type now st).2).sources = _
      refine ih _ ?_
      rw [(hfix st hst).2, hst]
  have hiter :
      (iterate_create_or_get source_name source_url source_type now (k + 1) db).sources
        = db.sources
          ++ [⟨db.next_source_id, source_name, source_type, source_url, now⟩] := by
    show (iterate_create_or_get source_name source_url source_type now k
      (create_or_get_signal_source source_name source_url source_type now db).2).sources = _
    refine hkeep k _ ?_
    rw [hstep1]
  exact ⟨hiter, (hfix _ hiter).1⟩

/-- Witness for `C7_create_or_get_idempotent_amended`: three invocations
against the empty store create exactly one `Reuters` row. -/
theorem C7_create_or_get_idempotent_amended_witness :
    (∀ r ∈ emptyDb.sources, r.source_name ≠ "Reuters")
    ∧ (∀ r ∈ emptyDb.sources, r.id < emptyDb.next_source_id)
    ∧ ((iterate_create_or_get "Reuters" "https://u1" "RSS" "t0" (2 + 1) emptyDb).sources
        = emptyDb.sources
          ++ [⟨emptyDb.next_source_id, "Reuters", "RSS", "https://u1", "t0"⟩]
      ∧ (create_or_get_signal_source "Reuters" "https://u1" "RSS" "t0"
          (iterate_create_or_get "Reuters" "https://u1" "RSS" "t0" (2 + 1) emptyDb)).1
        = some emptyDb.next_source_id) :=
  ⟨by decide, by decide,
    C7_create_or_get_idempotent_amended "Reuters" "https://u1" "RSS" "t0" emptyDb 2
      (by decide) (by decide)⟩
